import Mathlib

/-!
Verification of the Sale→Promotion migration subsystem
(`saleor/discount/tasks.py`) and its read-side GraphQL adapter
(`saleor/graphql/discount/types/sales.py`).

The Python code is shallowly embedded: database tables become Lists of
structures, querysets become filters over those lists, Django datetimes
become `Int` timestamps (nullable columns become `Option Int`), and the
two keyset-pagination generators become fuel-indexed recursive functions
(the fuel is always sufficient: each loop iteration of the source consumes
at least one remaining row).
-/

namespace Saleor

/-- A row of the legacy `Sale` model (`saleor/discount/models.py`), together
with its four many-to-many catalogue association pk lists.  `type` is the
`fixed`/`percentage` choice string, datetimes are integer timestamps, and
`end_date` / `notification_sent_datetime` are nullable. -/
structure Sale where
  id : Nat
  name : String
  type : String
  start_date : Int
  end_date : Option Int
  created_at : Int
  updated_at : Int
  notification_sent_datetime : Option Int
  collections : List Nat
  categories : List Nat
  products : List Nat
  variants : List Nat
deriving DecidableEq, Repr, Inhabited

/-- A row of `SaleChannelListing`: the per-channel listing of a sale with its
discount value (a decimal in the source, embedded as an opaque `Int`). -/
structure SaleChannelListing where
  pk : Nat
  sale_id : Nat
  channel_id : Nat
  discount_value : Int
deriving DecidableEq, Repr, Inhabited

/-- A row of the new `Promotion` model, as created by
`SaleToPromotionConverter.convert_sale_into_promotion`. -/
structure Promotion where
  name : String
  old_sale_id : Nat
  start_date : Int
  end_date : Option Int
  created_at : Int
  updated_at : Int
deriving DecidableEq, Repr, Inhabited

/-- One `{"<kind>Predicate": {"ids": [...]}}` entry of a catalogue
predicate's OR-list. -/
structure PredicateClause where
  kind : String
  ids : List String
deriving DecidableEq, Repr, Inhabited

/-- The persisted catalogue-predicate JSON value `{"OR": [...]}`. -/
structure CataloguePredicate where
  OR : List PredicateClause
deriving DecidableEq, Repr, Inhabited

/-- Models `graphene.Node.to_global_id` (external library, out of scope per
the spec): a reversible, hence injective, encoding of a type name and a
local primary key into an opaque global ID string. -/
def to_global_id (type_name : String) (pk : Nat) : String :=
  type_name ++ ":" ++ toString pk

/-- Embeds `SaleToPromotionConverter.create_catalogue_predicate`
(`tasks.py` lines 143-172): one clause per non-empty association kind,
appended in the fixed source order collection, category, product, variant. -/
def create_catalogue_predicate (sale : Sale) : CataloguePredicate :=
  let collection_ids := sale.collections.map (to_global_id "Collection")
  let category_ids := sale.categories.map (to_global_id "Category")
  let product_ids := sale.products.map (to_global_id "Product")
  let variant_ids := sale.variants.map (to_global_id "ProductVariant")
  { OR :=
      (if collection_ids = [] then []
        else [{ kind := "collectionPredicate", ids := collection_ids }])
      ++ (if category_ids = [] then []
        else [{ kind := "categoryPredicate", ids := category_ids }])
      ++ (if product_ids = [] then []
        else [{ kind := "productPredicate", ids := product_ids }])
      ++ (if variant_ids = [] then []
        else [{ kind := "variantPredicate", ids := variant_ids }]) }

/-- A rule of the new model, as built by
`SaleToPromotionConverter.create_promotion_rule`: the rule keeps the whole
in-memory `Promotion` object it belongs to (as the Python code does before
any database id exists), and `channels` is its channel m2m association. -/
structure PromotionRule where
  name : String
  promotion : Promotion
  catalogue_predicate : CataloguePredicate
  reward_value_type : String
  reward_value : Option Int
  channels : List Nat
deriving DecidableEq, Repr, Inhabited

/-- Embeds `SaleToPromotionConverter.convert_sale_into_promotion`. -/
def convert_sale_into_promotion (sale : Sale) : Promotion :=
  { name := sale.name
    old_sale_id := sale.id
    start_date := sale.start_date
    end_date := sale.end_date
    created_at := sale.created_at
    updated_at := sale.updated_at }

/-- Embeds `SaleToPromotionConverter.create_promotion_rule`; a rule starts
with no channel association (channels are added afterwards by
`RuleInfo.add_rule_to_channel`). -/
def create_promotion_rule (sale : Sale) (promotion : Promotion)
    (discount_value : Option Int) : PromotionRule :=
  { name := ""
    promotion := promotion
    catalogue_predicate := create_catalogue_predicate sale
    reward_value_type := sale.type
    reward_value := discount_value
    channels := [] }

/-- Embeds the converter's `RuleInfo` dataclass. -/
structure RuleInfo where
  rule : PromotionRule
  sale_id : Nat
  channel_id : Nat
deriving DecidableEq, Repr, Inhabited

/-- Embeds `RuleInfo.add_rule_to_channel`: associates the info's channel to
its rule. -/
def RuleInfo.add_rule_to_channel (ri : RuleInfo) : PromotionRule :=
  { ri.rule with channels := ri.rule.channels ++ [ri.channel_id] }

/-- Embeds the converter's `BATCH_SIZE` class constant. -/
def BATCH_SIZE : Nat := 100

/-- Loop body of `SaleToPromotionConverter.queryset_in_batches` (`tasks.py`
lines 287-296).  The table is the list of primary keys of the queryset in
its order; each round fetches `pk > start_pk` limited to the batch size,
stops on an empty page, otherwise yields the page and continues from the
page's last key.  The fuel argument only bounds the number of loop
iterations of the source's `while True`; every call below supplies fuel
exceeding the row count, which is enough because each yielded page consumes
at least one remaining row. -/
def queryset_in_batches_go (B : Nat) (table : List Nat) (start_pk : Nat) :
    Nat → List (List Nat)
  | 0 => []
  | fuel + 1 =>
    let pks := (table.filter (fun pk => decide (start_pk < pk))).take B
    if pks = [] then []
    else pks :: queryset_in_batches_go B table (pks.getLastD 0) fuel

/-- Embeds `SaleToPromotionConverter.queryset_in_batches`. -/
def queryset_in_batches (B : Nat) (table : List Nat) : List (List Nat) :=
  queryset_in_batches_go B table 0 (table.length + 1)

/-- Loop body of `SaleToPromotionConverter.channel_listing_in_batches`
(`tasks.py` lines 269-285): `batch_1` is a fixed-size window of listings with
`sale_id > first_sale_id`; `batch_2` extends it to every listing sharing the
window's last sale id; the listing pks of `batch_2` are yielded and iteration
resumes after `batch_2`'s last sale id. -/
def channel_listing_in_batches_go (B : Nat) (qs : List SaleChannelListing)
    (first_sale_id : Nat) : Nat → List (List Nat)
  | 0 => []
  | fuel + 1 =>
    let batch_1 := (qs.filter (fun l => decide (first_sale_id < l.sale_id))).take B
    if batch_1 = [] then []
    else
      let last_sale_id := (batch_1.getLastD default).sale_id
      let batch_2 := qs.filter (fun l =>
        decide (first_sale_id < l.sale_id) && decide (l.sale_id ≤ last_sale_id))
      let pks := batch_2.map (fun l => l.pk)
      if pks = [] then []
      else
        pks :: channel_listing_in_batches_go B qs
          ((batch_2.getLastD default).sale_id) fuel

/-- Embeds `SaleToPromotionConverter.channel_listing_in_batches`. -/
def channel_listing_in_batches (B : Nat) (qs : List SaleChannelListing) :
    List (List Nat) :=
  channel_listing_in_batches_go B qs 0 (qs.length + 1)

/-- Proof-side normal form of keyset pagination: successive contiguous
slices of at most `B` rows. -/
def chunk (B : Nat) : List Nat → List (List Nat)
  | [] => []
  | x :: xs => (x :: xs.take (B - 1)) :: chunk B (xs.drop (B - 1))
termination_by l => l.length
decreasing_by
  simp only [List.length_drop, List.length_cons]
  omega

/-- Dereferences a `sale_id` foreign key against the `Sale` table, as Django
does for `sale_listing.sale`.  The default is never reached when the foreign
key refers to an existing row. -/
def findSale (db_sales : List Sale) (sale_id : Nat) : Sale :=
  (db_sales.find? (fun s => s.id == sale_id)).getD default

/-- Lookup in the `saleid_promotion_map` dict.  Its keys (sale primary keys)
are unique, so the first match is the dict's binding; the default branch
models the `KeyError` case, unreachable under foreign-key integrity. -/
def promo_map_get (m : List (Nat × Promotion)) (sale_id : Nat) : Promotion :=
  match m.find? (fun x => x.1 == sale_id) with
  | some x => x.2
  | none => default

/-- Embeds `SaleToPromotionConverter.migrate_sales_to_promotions`: one
`(sale_id, Promotion)` map entry per sale whose pk is in `sales_pks`, in
primary-key order (the table is kept ordered by pk). -/
def migrate_sales_to_promotions (db_sales : List Sale) (sales_pks : List Nat) :
    List (Nat × Promotion) :=
  (db_sales.filter (fun s => decide (s.id ∈ sales_pks))).map
    (fun s => (s.id, convert_sale_into_promotion s))

/-- Embeds `SaleToPromotionConverter.migrate_sale_listing_to_promotion_rules`:
one `RuleInfo` per listing, carrying the listing's discount value and channel
and the promotion looked up by the listing's sale id. -/
def migrate_sale_listing_to_promotion_rules (db_sales : List Sale)
    (sale_listings : List SaleChannelListing)
    (saleid_promotion_map : List (Nat × Promotion)) : List RuleInfo :=
  sale_listings.map (fun sl =>
    { rule := create_promotion_rule (findSale db_sales sl.sale_id)
        (promo_map_get saleid_promotion_map sl.sale_id) (some sl.discount_value)
      sale_id := sl.sale_id
      channel_id := sl.channel_id })

/-- Embeds `SaleToPromotionConverter.migrate_sales_to_promotion_rules`
(the zero-listing path): one rule per sale, with no discount value and no
channel. -/
def migrate_sales_to_promotion_rules (db_sales : List Sale)
    (sales_pks : List Nat) (saleid_promotion_map : List (Nat × Promotion)) :
    List PromotionRule :=
  (db_sales.filter (fun s => decide (s.id ∈ sales_pks))).map
    (fun s => create_promotion_rule s (promo_map_get saleid_promotion_map s.id) none)

/-- The `f"{channel_id}_{sale_id}"` lookup key. -/
def rule_lookup_key (channel_id sale_id : Nat) : String :=
  toString channel_id ++ "_" ++ toString sale_id

/-- Embeds `SaleToPromotionConverter.get_rule_by_channel_sale`. -/
def get_rule_by_channel_sale (rules_info : List RuleInfo) :
    List (String × PromotionRule) :=
  rules_info.map (fun ri => (rule_lookup_key ri.channel_id ri.sale_id, ri.rule))

/-- Python `dict.get` over the association list: the last binding of a key
wins, absent keys give `none`. -/
def dict_get (m : List (String × PromotionRule)) (k : String) :
    Option PromotionRule :=
  (m.reverse.find? (fun x => x.1 == k)).map (fun x => x.2)

/-- The owning line of an `OrderLineDiscount`, reduced to the data the
migration reads from it: the channel of its order. -/
structure OrderLine where
  order_channel_id : Nat
deriving DecidableEq, Repr, Inhabited

/-- A row of `OrderLineDiscount`: the legacy `sale_id` reference, the
nullable owning line, and the nullable new `promotion_rule` reference. -/
structure OrderLineDiscount where
  sale_id : Nat
  line : Option OrderLine
  promotion_rule : Option PromotionRule
deriving DecidableEq, Repr, Inhabited

/-- The owning line of a `CheckoutLineDiscount`, reduced to the channel of
its checkout. -/
structure CheckoutLine where
  checkout_channel_id : Nat
deriving DecidableEq, Repr, Inhabited

/-- A row of `CheckoutLineDiscount`. -/
structure CheckoutLineDiscount where
  sale_id : Nat
  line : Option CheckoutLine
  promotion_rule : Option PromotionRule
deriving DecidableEq, Repr, Inhabited

/-- Embeds `SaleToPromotionConverter.migrate_order_line_discounts`
(`tasks.py` lines 245-260) as a transformer of the discount table: rows with
`sale_id` in `sales_pks` and a line whose `{channel_id}_{sale_id}` key has a
rule are re-pointed at that rule; every other row is written back
unchanged. -/
def migrate_order_line_discounts (sales_pks : List Nat)
    (rule_by_channel_and_sale : List (String × PromotionRule))
    (discounts : List OrderLineDiscount) : List OrderLineDiscount :=
  discounts.map (fun d =>
    if d.sale_id ∈ sales_pks then
      match d.line with
      | some line =>
        match dict_get rule_by_channel_and_sale
            (rule_lookup_key line.order_channel_id d.sale_id) with
        | some promotion_rule => { d with promotion_rule := some promotion_rule }
        | none => d
      | none => d
    else d)

/-- Embeds `SaleToPromotionConverter.migrate_checkout_line_discounts`
(`tasks.py` lines 228-243). -/
def migrate_checkout_line_discounts (sales_pks : List Nat)
    (rule_by_channel_and_sale : List (String × PromotionRule))
    (discounts : List CheckoutLineDiscount) : List CheckoutLineDiscount :=
  discounts.map (fun d =>
    if d.sale_id ∈ sales_pks then
      match d.line with
      | some line =>
        match dict_get rule_by_channel_and_sale
            (rule_lookup_key line.checkout_channel_id d.sale_id) with
        | some promotion_rule => { d with promotion_rule := some promotion_rule }
        | none => d
      | none => d
    else d)

/-- The database rows the migration creates or rewrites. -/
structure MigrationState where
  promotions : List Promotion
  rules : List PromotionRule
  order_line_discounts : List OrderLineDiscount
  checkout_line_discounts : List CheckoutLineDiscount
deriving DecidableEq, Repr, Inhabited

/-- One iteration of the first loop of
`SaleToPromotionConverter.convert_sales_to_promotions` (`tasks.py`
lines 301-330): refetch the batch's listings (the table is ordered by
sale id), collect the batch's sale pks, bulk-create promotions and rules,
then re-point the line discounts through the `{channel}_{sale}` map. -/
def process_listing_batch (db_sales : List Sale)
    (db_listings : List SaleChannelListing) (st : MigrationState)
    (batch_pks : List Nat) : MigrationState :=
  let sales_listing_batch := db_listings.filter (fun l => decide (l.pk ∈ batch_pks))
  let sales_batch_pks := sales_listing_batch.map (fun l => l.sale_id)
  let saleid_promotion_map := migrate_sales_to_promotions db_sales sales_batch_pks
  let rules_info := migrate_sale_listing_to_promotion_rules db_sales
    sales_listing_batch saleid_promotion_map
  let rule_by_channel_and_sale := get_rule_by_channel_sale rules_info
  { promotions := st.promotions ++ saleid_promotion_map.map (fun x => x.2)
    rules := st.rules ++ rules_info.map RuleInfo.add_rule_to_channel
    order_line_discounts := migrate_order_line_discounts sales_batch_pks
      rule_by_channel_and_sale st.order_line_discounts
    checkout_line_discounts := migrate_checkout_line_discounts sales_batch_pks
      rule_by_channel_and_sale st.checkout_line_discounts }

/-- One iteration of the second loop of `convert_sales_to_promotions`
(`tasks.py` lines 336-340), for sales not listed in any channel. -/
def process_unlisted_batch (db_sales : List Sale) (st : MigrationState)
    (batch_pks : List Nat) : MigrationState :=
  let saleid_promotion_map := migrate_sales_to_promotions db_sales batch_pks
  { st with
    promotions := st.promotions ++ saleid_promotion_map.map (fun x => x.2)
    rules := st.rules ++ migrate_sales_to_promotion_rules db_sales batch_pks
      saleid_promotion_map }

/-- Embeds `SaleToPromotionConverter.convert_sales_to_promotions`
(`tasks.py` lines 298-340): drive the listing-aware iterator over the
listing table and migrate each batch, then drive the plain iterator over the
sales with no listing.  `db_listings` is the `SaleChannelListing` table
ordered by `sale_id`, `db_sales` the `Sale` table ordered by pk. -/
def convert_sales_to_promotions (db_sales : List Sale)
    (db_listings : List SaleChannelListing)
    (order_discounts : List OrderLineDiscount)
    (checkout_discounts : List CheckoutLineDiscount) : MigrationState :=
  let st0 : MigrationState :=
    { promotions := [], rules := [], order_line_discounts := order_discounts
      checkout_line_discounts := checkout_discounts }
  let st1 := (channel_listing_in_batches BATCH_SIZE db_listings).foldl
    (process_listing_batch db_sales db_listings) st0
  let sales_not_listed := db_sales.filter
    (fun s => !(db_listings.any (fun l => l.sale_id == s.id)))
  (queryset_in_batches BATCH_SIZE (sales_not_listed.map (fun s => s.id))).foldl
    (process_unlisted_batch db_sales) st1

/-- Proof-side closed form of the rule the migration creates for one
listing: the rule of the listing's sale and discount value, associated to
the listing's channel, owned by the promotion converted from that sale. -/
def ruleFor (db_sales : List Sale) (l : SaleChannelListing) : PromotionRule :=
  RuleInfo.add_rule_to_channel
    { rule := create_promotion_rule (findSale db_sales l.sale_id)
        (convert_sale_into_promotion (findSale db_sales l.sale_id))
        (some l.discount_value)
      sale_id := l.sale_id
      channel_id := l.channel_id }

/-- Embeds the filter condition of `get_sales_to_notify_about` (`tasks.py`
lines 82-106) under SQL NULL semantics: a comparison against a NULL column
(a null `notification_sent_datetime` in `__lt`, or a null `end_date`) is
not satisfied, while the explicit `__isnull` test is. -/
def sale_toggle_due (now : Int) (s : Sale) : Bool :=
  ((s.notification_sent_datetime.isNone ||
      (match s.notification_sent_datetime with
        | some n => decide (n < s.start_date)
        | none => false)) &&
    decide (s.start_date ≤ now)) ||
  ((s.notification_sent_datetime.isNone ||
      (match s.notification_sent_datetime, s.end_date with
        | some n, some e => decide (n < e)
        | _, _ => false)) &&
    (match s.end_date with
      | some e => decide (e ≤ now)
      | none => false))

/-- Embeds `get_sales_to_notify_about`: the sales matching the due filter.
The query joins no other table, so its `.distinct()` is a no-op. -/
def get_sales_to_notify_about (now : Int) (db_sales : List Sale) : List Sale :=
  db_sales.filter (sale_toggle_due now)

/-- Observable side effects of `handle_sale_toggle`: one `sale_toggle`
plugin-hook invocation per sale, and the enqueue of the price
recalculation task with its four deduplicated id sets. -/
inductive ToggleEvent where
  | hookCall (sale_id : Nat)
  | enqueueRecalc (product_ids category_ids collection_ids variant_ids : List Nat)
deriving DecidableEq, Repr

/-- One id-set accumulated by `fetch_catalogue_infos`: the union of one
catalogue field over the selected sales.  Python's `if id :=` walrus test
skips falsy (zero) ids. -/
def catalogue_info_field (sales : List Sale) (proj : Sale → List Nat) :
    List Nat :=
  (((sales.map proj).flatten).filter (fun i => decide (i ≠ 0))).dedup

/-- The `for sale in sales: manager.sale_toggle(...)` loop: hooks run in
order until the first one raises; the raised error aborts the task. -/
def run_sale_toggle_hooks (hook : Sale → Except String Unit) :
    List Sale → List ToggleEvent × Option String
  | [] => ([], none)
  | s :: rest =>
    match hook s with
    | Except.error e => ([ToggleEvent.hookCall s.id], some e)
    | Except.ok _ =>
      let r := run_sale_toggle_hooks hook rest
      (ToggleEvent.hookCall s.id :: r.1, r.2)

/-- Embeds `handle_sale_toggle` (`tasks.py` lines 30-62).  Returns the sale
table after the task, the emitted side effects in order, and the error of
the first failing hook if any.  `now` is the selection timestamp and
`update_now` the (later) timestamp written by `sales.update(...)`; the
update re-runs the selection's WHERE clause, which captured `now`. -/
def handle_sale_toggle (hook : Sale → Except String Unit) (now update_now : Int)
    (db_sales : List Sale) : List Sale × List ToggleEvent × Option String :=
  let sales := get_sales_to_notify_about now db_sales
  let product_ids := catalogue_info_field sales (fun s => s.products)
  let category_ids := catalogue_info_field sales (fun s => s.categories)
  let collection_ids := catalogue_info_field sales (fun s => s.collections)
  let variant_ids := catalogue_info_field sales (fun s => s.variants)
  if sales = [] then (db_sales, [], none)
  else
    match run_sale_toggle_hooks hook sales with
    | (events, some e) => (db_sales, events, some e)
    | (events, none) =>
      let events :=
        if product_ids ≠ [] ∨ category_ids ≠ [] ∨ collection_ids ≠ [] ∨
            variant_ids ≠ [] then
          events ++ [ToggleEvent.enqueueRecalc product_ids category_ids
            collection_ids variant_ids]
        else events
      (db_sales.map (fun s =>
          if sale_toggle_due now s then
            { s with notification_sent_datetime := some update_now }
          else s),
        events, none)

/-- A sales channel row, reduced to what the read-side adapter reads. -/
structure Channel where
  id : Nat
  currency_code : String
deriving DecidableEq, Repr, Inhabited

/-- A stored `PromotionRule` row as the read-side adapter sees it: the
database primary key plus the row contents. -/
structure StoredPromotionRule where
  id : Nat
  rule : PromotionRule
deriving DecidableEq, Repr, Inhabited

/-- The reverse relation `promotion.rules` used by the `Sale` resolvers:
the stored rules owned by the promotion, in table order. -/
def promotion_rules (db_rules : List StoredPromotionRule) (p : Promotion) :
    List StoredPromotionRule :=
  db_rules.filter (fun r => r.rule.promotion == p)

/-- Embeds `root.node.rules.first()`. -/
def rules_first (db_rules : List StoredPromotionRule) (p : Promotion) :
    Option StoredPromotionRule :=
  (promotion_rules db_rules p).head?

/-- Embeds `rule.channels.first()`: the first associated channel id,
dereferenced against the channel table. -/
def channels_first (db_channels : List Channel) (r : StoredPromotionRule) :
    Option Channel :=
  r.rule.channels.head?.bind (fun cid => db_channels.find? (fun c => c.id == cid))

/-- Embeds `Sale.resolve_type` (`sales.py` lines 122-125): the first rule's
reward value type, or null. -/
def resolve_type (db_rules : List StoredPromotionRule) (p : Promotion) :
    Option String :=
  (rules_first db_rules p).map (fun r => r.rule.reward_value_type)

/-- Embeds `Sale.resolve_discount_value` (`sales.py` lines 198-203): the
first rule's reward value, or null. -/
def resolve_discount_value (db_rules : List StoredPromotionRule)
    (p : Promotion) : Option Int :=
  (rules_first db_rules p).bind (fun r => r.rule.reward_value)

/-- Embeds `Sale.resolve_currency` (`sales.py` lines 205-209): the currency
of the first rule's first channel, or null. -/
def resolve_currency (db_rules : List StoredPromotionRule)
    (db_channels : List Channel) (p : Promotion) : Option String :=
  (rules_first db_rules p).bind (fun r =>
    (channels_first db_channels r).map (fun c => c.currency_code))

/-- The `SaleChannelListing` GraphQL object built by
`Sale.resolve_channel_listings`. -/
structure SaleChannelListingGQL where
  id : String
  channel : Channel
  discount_value : Option Int
  currency : String
deriving DecidableEq, Repr, Inhabited

/-- Embeds `Sale.resolve_channel_listings` (`sales.py` lines 140-154): a
one-element listing list from the first rule and its first channel, or
null when either is missing. -/
def resolve_channel_listings (db_rules : List StoredPromotionRule)
    (db_channels : List Channel) (p : Promotion) :
    Option (List SaleChannelListingGQL) :=
  (rules_first db_rules p).bind (fun r =>
    (channels_first db_channels r).map (fun channel =>
      [{ id := to_global_id "SaleChannelListing" r.id
         channel := channel
         discount_value := r.rule.reward_value
         currency := channel.currency_code }]))

/-- Concrete sale used to witness the catalogue-predicate claims: products
{1, 2} and no other associations. -/
def saleProductsOnly : Sale :=
  { id := 1, name := "sale", type := "fixed", start_date := 0, end_date := none
    created_at := 0, updated_at := 0, notification_sent_datetime := none
    collections := [], categories := [], products := [1, 2], variants := [] }

/-- Concrete sale with past start date and null notification timestamp. -/
def saleDueDemo : Sale :=
  { id := 1, name := "due", type := "fixed", start_date := 0, end_date := none
    created_at := 0, updated_at := 0, notification_sent_datetime := none
    collections := [], categories := [], products := [], variants := [] }

/-- Concrete sale already notified after its start date, with no end date. -/
def saleNotifiedDemo : Sale :=
  { id := 2, name := "notified", type := "fixed", start_date := 0, end_date := none
    created_at := 0, updated_at := 0, notification_sent_datetime := some 3
    collections := [], categories := [], products := [], variants := [] }

/-- Concrete sale whose start date has not been reached yet. -/
def saleFutureDemo : Sale :=
  { id := 3, name := "future", type := "fixed", start_date := 10, end_date := none
    created_at := 0, updated_at := 0, notification_sent_datetime := none
    collections := [], categories := [], products := [], variants := [] }

/-- A plugin hook that succeeds on every sale. -/
def hookAlwaysOk : Sale → Except String Unit := fun _ => Except.ok ()

/-- A plugin hook that raises on every sale. -/
def hookAlwaysFail : Sale → Except String Unit := fun _ =>
  Except.error "hook failure"

/-- Concrete promotion used by the read-side witnesses. -/
def promotionDemo : Promotion := convert_sale_into_promotion saleDueDemo

/-- Concrete rule keyed under channel 3 and sale 5 in the re-pointing
witnesses. -/
def ruleDemo : PromotionRule :=
  { name := "", promotion := promotionDemo, catalogue_predicate := { OR := [] }
    reward_value_type := "fixed", reward_value := some 5, channels := [3] }

/-- Concrete rule map binding only the key built from channel 3 and
sale 5. -/
def ruleMapDemo : List (String × PromotionRule) := [("3_5", ruleDemo)]

/-- Order-line discount whose (channel, sale) pair (3, 5) has a rule in
`ruleMapDemo`. -/
def odMatched : OrderLineDiscount :=
  { sale_id := 5, line := some { order_channel_id := 3 }, promotion_rule := none }

/-- Order-line discount whose (channel, sale) pair (4, 7) has no rule in
`ruleMapDemo`. -/
def odUnmatched : OrderLineDiscount :=
  { sale_id := 7, line := some { order_channel_id := 4 }, promotion_rule := none }

/-- Proof-side name for the promotions one listing batch creates. -/
def batch_promotions (db_sales : List Sale) (db_listings : List SaleChannelListing)
    (b : List Nat) : List Promotion :=
  (migrate_sales_to_promotions db_sales
    ((db_listings.filter (fun l => decide (l.pk ∈ b))).map (fun l => l.sale_id))).map
    (fun x => x.2)

/-- Proof-side name for the rules one listing batch creates. -/
def batch_rules (db_sales : List Sale) (db_listings : List SaleChannelListing)
    (b : List Nat) : List PromotionRule :=
  (migrate_sale_listing_to_promotion_rules db_sales
    (db_listings.filter (fun l => decide (l.pk ∈ b)))
    (migrate_sales_to_promotions db_sales
      ((db_listings.filter (fun l => decide (l.pk ∈ b))).map (fun l => l.sale_id)))).map
    RuleInfo.add_rule_to_channel

/-- Proof-side name for the promotions one zero-listing batch creates. -/
def unlisted_batch_promotions (db_sales : List Sale) (b : List Nat) :
    List Promotion :=
  (migrate_sales_to_promotions db_sales b).map (fun x => x.2)

/-- Proof-side name for the rules one zero-listing batch creates. -/
def unlisted_batch_rules (db_sales : List Sale) (b : List Nat) :
    List PromotionRule :=
  migrate_sales_to_promotion_rules db_sales b
    (migrate_sales_to_promotions db_sales b)

/-- Listing table for the migration witness: sale 1 has one listing in
channel 7 with discount value 5, sale 2 has none. -/
def listingsDemoC1 : List SaleChannelListing :=
  [{ pk := 1, sale_id := 1, channel_id := 7, discount_value := 5 }]

/-- Listing table for the batching witnesses: sale 1 has three listings
(more than the witness batch size of two), sale 2 has one. -/
def listingsDemo : List SaleChannelListing :=
  [{ pk := 1, sale_id := 1, channel_id := 1, discount_value := 10 },
   { pk := 2, sale_id := 1, channel_id := 2, discount_value := 10 },
   { pk := 3, sale_id := 1, channel_id := 3, discount_value := 10 },
   { pk := 4, sale_id := 2, channel_id := 1, discount_value := 20 }]

/-- C2: for every sale, `create_catalogue_predicate` returns `{"OR": [...]}`
whose OR-list contains one `{<kind>Predicate: {"ids": [...]}}` entry per
entity kind with a non-empty associated ID set (carrying that kind's global
IDs), omits every kind whose ID set is empty, and in particular a sale with
only products yields exactly `{"OR": [{"productPredicate": {"ids": ...}}]}`
and a sale with no associations yields `{"OR": []}`. -/
theorem create_catalogue_predicate_spec (sale : Sale) :
    (∀ c ∈ (create_catalogue_predicate sale).OR,
        (c.kind = "collectionPredicate" ∧ sale.collections ≠ [] ∧
          c.ids = sale.collections.map (to_global_id "Collection")) ∨
        (c.kind = "categoryPredicate" ∧ sale.categories ≠ [] ∧
          c.ids = sale.categories.map (to_global_id "Category")) ∨
        (c.kind = "productPredicate" ∧ sale.products ≠ [] ∧
          c.ids = sale.products.map (to_global_id "Product")) ∨
        (c.kind = "variantPredicate" ∧ sale.variants ≠ [] ∧
          c.ids = sale.variants.map (to_global_id "ProductVariant"))) ∧
    (sale.collections ≠ [] →
      ({ kind := "collectionPredicate",
         ids := sale.collections.map (to_global_id "Collection") } : PredicateClause)
        ∈ (create_catalogue_predicate sale).OR) ∧
    (sale.categories ≠ [] →
      ({ kind := "categoryPredicate",
         ids := sale.categories.map (to_global_id "Category") } : PredicateClause)
        ∈ (create_catalogue_predicate sale).OR) ∧
    (sale.products ≠ [] →
      ({ kind := "productPredicate",
         ids := sale.products.map (to_global_id "Product") } : PredicateClause)
        ∈ (create_catalogue_predicate sale).OR) ∧
    (sale.variants ≠ [] →
      ({ kind := "variantPredicate",
         ids := sale.variants.map (to_global_id "ProductVariant") } : PredicateClause)
        ∈ (create_catalogue_predicate sale).OR) ∧
    (sale.collections = [] → sale.categories = [] → sale.variants = [] →
      (create_catalogue_predicate sale).OR =
        if sale.products = [] then []
        else [{ kind := "productPredicate",
                ids := sale.products.map (to_global_id "Product") }]) := by
  simp only [create_catalogue_predicate]
  split_ifs <;> simp_all

/-- Witness for C2: the sale with products {1, 2} and no other associations
produces exactly one productPredicate clause holding both global IDs. -/
theorem create_catalogue_predicate_spec_witness :
    (create_catalogue_predicate saleProductsOnly).OR =
      [{ kind := "productPredicate", ids := ["Product:1", "Product:2"] }] := by
  have h := (create_catalogue_predicate_spec saleProductsOnly).2.2.2.2.2 rfl rfl rfl
  rw [h]
  decide

/-- C10: the OR-list built by `create_catalogue_predicate` lists its clause
kinds as a sublist of the fixed order collectionPredicate, categoryPredicate,
productPredicate, variantPredicate; hence at most one clause per kind and
never more than 4 clauses. -/
theorem create_catalogue_predicate_shape (sale : Sale) :
    ((create_catalogue_predicate sale).OR.map PredicateClause.kind).Sublist
      ["collectionPredicate", "categoryPredicate", "productPredicate",
        "variantPredicate"] ∧
    ((create_catalogue_predicate sale).OR.map PredicateClause.kind).Nodup ∧
    (create_catalogue_predicate sale).OR.length ≤ 4 := by
  simp only [create_catalogue_predicate]
  split_ifs <;> refine ⟨?_, ?_, ?_⟩ <;> simp

/-- Helper: when no hook raised, every sale of the list got its hook
invocation. -/
theorem run_sale_toggle_hooks_ok_events (hook : Sale → Except String Unit)
    (sales : List Sale) (h : (run_sale_toggle_hooks hook sales).2 = none) :
    ∀ s ∈ sales,
      ToggleEvent.hookCall s.id ∈ (run_sale_toggle_hooks hook sales).1 := by
  induction sales with
  | nil => simp
  | cons t rest ih =>
    intro s hs
    simp only [run_sale_toggle_hooks] at h ⊢
    cases hht : hook t with
    | error e => rw [hht] at h; simp at h
    | ok u =>
      rw [hht] at h
      simp only [List.mem_cons] at hs
      simp at h ⊢
      rcases hs with rfl | hs'
      · exact Or.inl rfl
      · exact Or.inr (ih h s hs')

/-- C5: `get_sales_to_notify_about` selects a sale iff its start date has
passed and the prior notification is null or predates the start date, or
the symmetric condition holds for its (non-null) end date. -/
theorem get_sales_to_notify_about_spec (now : Int) (db_sales : List Sale)
    (s : Sale) (hs : s ∈ db_sales) :
    s ∈ get_sales_to_notify_about now db_sales ↔
      ((s.start_date ≤ now ∧
          (s.notification_sent_datetime = none ∨
            ∃ n, s.notification_sent_datetime = some n ∧ n < s.start_date)) ∨
        (∃ e, s.end_date = some e ∧ e ≤ now ∧
          (s.notification_sent_datetime = none ∨
            ∃ n, s.notification_sent_datetime = some n ∧ n < e))) := by
  simp only [get_sales_to_notify_about, List.mem_filter, hs, true_and]
  cases hnd : s.notification_sent_datetime <;> cases hed : s.end_date <;>
    simp [sale_toggle_due, hnd, hed] <;> tauto

/-- Witness for C5: a sale with past start date and null notification is
selected; a sale already notified after its start date with no end date is
not. -/
theorem get_sales_to_notify_about_spec_witness :
    saleDueDemo ∈ get_sales_to_notify_about 5 [saleDueDemo, saleNotifiedDemo] ∧
    saleNotifiedDemo ∉ get_sales_to_notify_about 5 [saleDueDemo, saleNotifiedDemo] := by
  constructor
  · exact (get_sales_to_notify_about_spec 5 [saleDueDemo, saleNotifiedDemo]
      saleDueDemo (by simp)).mpr (Or.inl ⟨by decide, Or.inl rfl⟩)
  · intro hmem
    have h := (get_sales_to_notify_about_spec 5 [saleDueDemo, saleNotifiedDemo]
      saleNotifiedDemo (by simp)).mp hmem
    simp [saleNotifiedDemo] at h

/-- C6: in `handle_sale_toggle` the notification timestamp write happens
only after all hooks ran: if any hook raises, the sale table (hence every
selected sale's `notification_sent_datetime`) is left unchanged, and a
timestamp write implies that every selected sale received its hook call. -/
theorem handle_sale_toggle_atomic (hook : Sale → Except String Unit)
    (now update_now : Int) (db_sales : List Sale) :
    ((handle_sale_toggle hook now update_now db_sales).2.2.isSome →
      (handle_sale_toggle hook now update_now db_sales).1 = db_sales) ∧
    ((handle_sale_toggle hook now update_now db_sales).2.2 = none →
      ∀ s ∈ get_sales_to_notify_about now db_sales,
        ToggleEvent.hookCall s.id ∈
          (handle_sale_toggle hook now update_now db_sales).2.1) := by
  by_cases hsel : get_sales_to_notify_about now db_sales = []
  · constructor
    · intro hsome
      simp [handle_sale_toggle, hsel] at hsome
    · intro _ s hs
      rw [hsel] at hs
      simp at hs
  · have hmem := run_sale_toggle_hooks_ok_events hook
      (get_sales_to_notify_about now db_sales)
    simp only [handle_sale_toggle, if_neg hsel]
    generalize hr : run_sale_toggle_hooks hook
      (get_sales_to_notify_about now db_sales) = r at hmem
    obtain ⟨events, err⟩ := r
    cases err with
    | some e => simp
    | none =>
      refine ⟨by simp, ?_⟩
      intro _ s hs
      have hin := hmem rfl s hs
      simp only at hin ⊢
      split
      · exact List.mem_append_left _ hin
      · exact hin

/-- Witness for C6: with a raising hook and one due sale, the sale table
after the task equals the table before it. -/
theorem handle_sale_toggle_atomic_witness :
    (handle_sale_toggle hookAlwaysFail 5 6 [saleDueDemo]).1 = [saleDueDemo] :=
  (handle_sale_toggle_atomic hookAlwaysFail 5 6 [saleDueDemo]).1 (by decide)

/-- C9: on an empty selection, `handle_sale_toggle` is a complete no-op:
no hook call, no recalculation enqueue, no timestamp update. -/
theorem handle_sale_toggle_noop (hook : Sale → Except String Unit)
    (now update_now : Int) (db_sales : List Sale)
    (h : get_sales_to_notify_about now db_sales = []) :
    handle_sale_toggle hook now update_now db_sales = (db_sales, [], none) := by
  simp [handle_sale_toggle, h]

/-- Witness for C9: a single not-yet-started sale selects nothing and the
task changes nothing and emits nothing. -/
theorem handle_sale_toggle_noop_witness :
    handle_sale_toggle hookAlwaysOk 5 6 [saleFutureDemo] =
      ([saleFutureDemo], [], none) :=
  handle_sale_toggle_noop hookAlwaysOk 5 6 [saleFutureDemo] (by decide)

/-- C7: re-pointing of line discounts: a record whose `sale_id` is in the
batch, whose line exists, and whose `{channel_id}_{sale_id}` key has a rule
in the lookup is re-pointed at exactly that rule; every record whose pair
has no matching rule (or no line, or a sale outside the batch) is written
back unchanged — for both order-line and checkout-line discounts. -/
theorem migrate_line_discounts_repoint (sales_pks : List Nat)
    (m : List (String × PromotionRule))
    (ods : List OrderLineDiscount) (cds : List CheckoutLineDiscount) :
    (∀ (i : Nat) (hi : i < ods.length),
      ∀ (line : OrderLine) (r : PromotionRule),
      ods[i].sale_id ∈ sales_pks → ods[i].line = some line →
      dict_get m (rule_lookup_key line.order_channel_id ods[i].sale_id) = some r →
      (migrate_order_line_discounts sales_pks m ods)[i]? =
        some { ods[i] with promotion_rule := some r }) ∧
    (∀ (i : Nat) (hi : i < ods.length),
      (ods[i].sale_id ∉ sales_pks ∨ ods[i].line = none ∨
        (∀ line, ods[i].line = some line →
          dict_get m (rule_lookup_key line.order_channel_id ods[i].sale_id) = none)) →
      (migrate_order_line_discounts sales_pks m ods)[i]? = some ods[i]) ∧
    (∀ (i : Nat) (hi : i < cds.length),
      ∀ (line : CheckoutLine) (r : PromotionRule),
      cds[i].sale_id ∈ sales_pks → cds[i].line = some line →
      dict_get m (rule_lookup_key line.checkout_channel_id cds[i].sale_id) = some r →
      (migrate_checkout_line_discounts sales_pks m cds)[i]? =
        some { cds[i] with promotion_rule := some r }) ∧
    (∀ (i : Nat) (hi : i < cds.length),
      (cds[i].sale_id ∉ sales_pks ∨ cds[i].line = none ∨
        (∀ line, cds[i].line = some line →
          dict_get m (rule_lookup_key line.checkout_channel_id cds[i].sale_id) = none)) →
      (migrate_checkout_line_discounts sales_pks m cds)[i]? = some cds[i]) := by
  refine ⟨?_, ?_, ?_, ?_⟩
  · intro i hi line r h1 h2 h3
    simp [migrate_order_line_discounts, List.getElem?_map,
      List.getElem?_eq_getElem hi, h1, h2, h3]
  · intro i hi hcase
    rcases hcase with h | h | h
    · simp [migrate_order_line_discounts, List.getElem?_map,
        List.getElem?_eq_getElem hi, h]
    · simp [migrate_order_line_discounts, List.getElem?_map,
        List.getElem?_eq_getElem hi, h]
    · cases hl : ods[i].line with
      | none => simp [migrate_order_line_discounts, List.getElem?_map,
          List.getElem?_eq_getElem hi, hl]
      | some line => simp [migrate_order_line_discounts, List.getElem?_map,
          List.getElem?_eq_getElem hi, hl, h line hl]
  · intro i hi line r h1 h2 h3
    simp [migrate_checkout_line_discounts, List.getElem?_map,
      List.getElem?_eq_getElem hi, h1, h2, h3]
  · intro i hi hcase
    rcases hcase with h | h | h
    · simp [migrate_checkout_line_discounts, List.getElem?_map,
        List.getElem?_eq_getElem hi, h]
    · simp [migrate_checkout_line_discounts, List.getElem?_map,
        List.getElem?_eq_getElem hi, h]
    · cases hl : cds[i].line with
      | none => simp [migrate_checkout_line_discounts, List.getElem?_map,
          List.getElem?_eq_getElem hi, hl]
      | some line => simp [migrate_checkout_line_discounts, List.getElem?_map,
          List.getElem?_eq_getElem hi, hl, h line hl]

/-- Witness for C7: the discount on sale 5 in channel 3 is re-pointed at the
rule keyed "3_5"; the discount on the pair (4, 7), which has no rule, keeps
its record unchanged. -/
theorem migrate_line_discounts_repoint_witness :
    (migrate_order_line_discounts [5, 7] ruleMapDemo [odMatched, odUnmatched])[0]? =
      some { odMatched with promotion_rule := some ruleDemo } ∧
    (migrate_order_line_discounts [5, 7] ruleMapDemo [odMatched, odUnmatched])[1]? =
      some odUnmatched := by
  constructor
  · exact (migrate_line_discounts_repoint [5, 7] ruleMapDemo
      [odMatched, odUnmatched] []).1 0 (by decide) { order_channel_id := 3 }
      ruleDemo (by decide) (by decide) (by decide)
  · refine (migrate_line_discounts_repoint [5, 7] ruleMapDemo
      [odMatched, odUnmatched] []).2.1 1 (by decide)
      (Or.inr (Or.inr ?_))
    intro line hline
    injection hline with h
    subst h
    decide

/-- C8: for a promotion that owns no rule, the legacy `Sale` resolvers for
type, discount value, currency and channel listings all resolve to null
instead of raising. -/
theorem sale_resolvers_none_without_rule (db_rules : List StoredPromotionRule)
    (db_channels : List Channel) (p : Promotion)
    (h : promotion_rules db_rules p = []) :
    resolve_type db_rules p = none ∧ resolve_discount_value db_rules p = none ∧
    resolve_currency db_rules db_channels p = none ∧
    resolve_channel_listings db_rules db_channels p = none := by
  simp [resolve_type, resolve_discount_value, resolve_currency,
    resolve_channel_listings, rules_first, h]

/-- Witness for C8: with no stored rules at all, every resolver of the demo
promotion returns null. -/
theorem sale_resolvers_none_without_rule_witness :
    resolve_type [] promotionDemo = none ∧
    resolve_discount_value [] promotionDemo = none ∧
    resolve_currency [] [] promotionDemo = none ∧
    resolve_channel_listings [] [] promotionDemo = none :=
  sale_resolvers_none_without_rule [] [] promotionDemo rfl


/-- Helper: the defaulted last element of a non-empty list is a member. -/
theorem getLastD_mem {α : Type} (l : List α) (d : α) (h : l ≠ []) :
    l.getLastD d ∈ l := by
  induction l generalizing d with
  | nil => exact absurd rfl h
  | cons a t ih =>
    rw [List.getLastD_cons]
    cases t with
    | nil => simp
    | cons b u => exact List.mem_cons_of_mem a (ih a (by simp))

/-- Helper: the default of `getLastD` is irrelevant on a non-empty list. -/
theorem getLastD_default_eq {α : Type} (l : List α) (d e : α) (h : l ≠ []) :
    l.getLastD d = l.getLastD e := by
  cases l with
  | nil => exact absurd rfl h
  | cons a t => rw [List.getLastD_cons, List.getLastD_cons]

/-- Helper: concatenating the contiguous chunks gives back the list. -/
theorem chunk_flatten (B : Nat) (l : List Nat) : (chunk B l).flatten = l := by
  have H : ∀ (n : Nat) (l : List Nat), l.length ≤ n → (chunk B l).flatten = l := by
    intro n
    induction n with
    | zero =>
      intro l hl
      have : l = [] := List.length_eq_zero.mp (Nat.le_zero.mp hl)
      subst this
      simp [chunk]
    | succ n ih =>
      intro l hl
      cases l with
      | nil => simp [chunk]
      | cons x xs =>
        rw [chunk]
        simp only [List.flatten_cons]
        rw [ih (xs.drop (B - 1))
          (by simp only [List.length_drop]; simp only [List.length_cons] at hl; omega)]
        rw [List.cons_append, List.take_append_drop]
  exact H l.length l le_rfl

/-- Helper: there are ceil(N/B) contiguous chunks. -/
theorem chunk_length (B : Nat) (hB : 1 ≤ B) (l : List Nat) :
    (chunk B l).length = (l.length + B - 1) / B := by
  have H : ∀ (n : Nat) (l : List Nat), l.length ≤ n →
      (chunk B l).length = (l.length + B - 1) / B := by
    intro n
    induction n with
    | zero =>
      intro l hl
      have : l = [] := List.length_eq_zero.mp (Nat.le_zero.mp hl)
      subst this
      simp [chunk, Nat.div_eq_of_lt (by omega : B - 1 < B)]
    | succ n ih =>
      intro l hl
      cases l with
      | nil => simp [chunk, Nat.div_eq_of_lt (by omega : B - 1 < B)]
      | cons x xs =>
        rw [chunk]
        simp only [List.length_cons]
        rw [ih (xs.drop (B - 1))
          (by simp only [List.length_drop]; simp only [List.length_cons] at hl; omega)]
        simp only [List.length_drop]
        have hkB : xs.length + 1 + B - 1 = xs.length + B := by omega
        rw [hkB]
        rcases Nat.lt_or_ge xs.length B with hk | hk
        · have h1 : xs.length - (B - 1) = 0 := by omega
          rw [h1, Nat.add_div_right _ (by omega : 0 < B), Nat.div_eq_of_lt hk]
          have h0 : 0 + B - 1 = B - 1 := by omega
          rw [h0, Nat.div_eq_of_lt (by omega : B - 1 < B)]
        · have h2 : xs.length - (B - 1) + B - 1 = xs.length := by omega
          rw [h2, Nat.add_div_right _ (by omega : 0 < B)]
  exact H l.length l le_rfl

/-- Helper: in a listing list sorted by sale id, every member's sale id is
bounded by the defaulted last element's. -/
theorem sorted_sale_le_getLastD (l : List SaleChannelListing)
    (hsort : l.Pairwise (fun a b => a.sale_id ≤ b.sale_id)) (d : SaleChannelListing)
    (x : SaleChannelListing) (hx : x ∈ l) :
    x.sale_id ≤ (l.getLastD d).sale_id := by
  induction l generalizing d with
  | nil => simp at hx
  | cons a t ih =>
    rw [List.getLastD_cons]
    have hpair := List.pairwise_cons.mp hsort
    rcases List.mem_cons.mp hx with rfl | hxt
    · cases t with
      | nil => simp
      | cons b u =>
        exact hpair.1 _ (getLastD_mem (b :: u) x (by simp))
    · cases t with
      | nil => simp at hxt
      | cons b u => exact ih hpair.2 a hxt

/-- Helper: every pk yielded by the listing-aware loop started after
`first` belongs to a table listing whose sale id exceeds `first`. -/
theorem channel_go_mem_flatten (B : Nat) (qs : List SaleChannelListing) :
    ∀ (fuel first : Nat) (p : Nat),
      p ∈ (channel_listing_in_batches_go B qs first fuel).flatten →
      ∃ l ∈ qs, l.pk = p ∧ first < l.sale_id := by
  intro fuel
  induction fuel with
  | zero => intro first p hp; simp [channel_listing_in_batches_go] at hp
  | succ fuel ih =>
    intro first p hp
    rw [channel_listing_in_batches_go] at hp
    by_cases hb1 : (qs.filter (fun l => decide (first < l.sale_id))).take B = []
    · rw [if_pos hb1] at hp; simp at hp
    · rw [if_neg hb1] at hp
      set last_sale_id :=
        (((qs.filter (fun l => decide (first < l.sale_id))).take B).getLastD default).sale_id with hlast
      set batch_2 := qs.filter (fun l =>
        decide (first < l.sale_id) && decide (l.sale_id ≤ last_sale_id)) with hrb2
      by_cases hpks : batch_2.map (fun l => l.pk) = []
      · rw [if_pos hpks] at hp; simp at hp
      · rw [if_neg hpks] at hp
        rw [List.flatten_cons, List.mem_append] at hp
        have hb2ne : batch_2 ≠ [] := fun h => hpks (by rw [h]; rfl)
        have hb2mem : ∀ l ∈ batch_2, l ∈ qs ∧ first < l.sale_id := by
          intro l hl
          have := List.mem_filter.mp (hrb2 ▸ hl)
          refine ⟨this.1, ?_⟩
          have hand := this.2
          simp only [Bool.and_eq_true, decide_eq_true_eq] at hand
          exact hand.1
        rcases hp with hp | hp
        · rcases List.mem_map.mp hp with ⟨l, hl, hlp⟩
          exact ⟨l, (hb2mem l hl).1, hlp, (hb2mem l hl).2⟩
        · rcases ih ((batch_2.getLastD default).sale_id) p hp with ⟨l, hl, hlp, hlg⟩
          have hgl := hb2mem _ (getLastD_mem batch_2 default hb2ne)
          exact ⟨l, hl, hlp, lt_trans hgl.2 hlg⟩

/-- Helper: two distinct batches of the listing-aware loop never contain
pks of listings sharing a sale id. -/
theorem channel_go_no_split (B : Nat) (qs : List SaleChannelListing)
    (hsort : qs.Pairwise (fun a b => a.sale_id ≤ b.sale_id))
    (hpk : (qs.map (fun l => l.pk)).Nodup) :
    ∀ (fuel first i j : Nat) (bi bj : List Nat),
      (channel_listing_in_batches_go B qs first fuel)[i]? = some bi →
      (channel_listing_in_batches_go B qs first fuel)[j]? = some bj →
      i < j →
      ∀ l1 ∈ qs, ∀ l2 ∈ qs, l1.pk ∈ bi → l2.pk ∈ bj →
      l1.sale_id ≠ l2.sale_id := by
  intro fuel
  induction fuel with
  | zero =>
    intro first i j bi bj hbi
    simp [channel_listing_in_batches_go] at hbi
  | succ fuel ih =>
    intro first i j bi bj hbi hbj hij l1 hl1 l2 hl2 hp1 hp2
    rw [channel_listing_in_batches_go] at hbi hbj
    by_cases hb1 : (qs.filter (fun l => decide (first < l.sale_id))).take B = []
    · rw [if_pos hb1] at hbi; simp at hbi
    · rw [if_neg hb1] at hbi hbj
      set last_sale_id :=
        (((qs.filter (fun l => decide (first < l.sale_id))).take B).getLastD
          default).sale_id with hlast
      set batch_2 := qs.filter (fun l =>
        decide (first < l.sale_id) && decide (l.sale_id ≤ last_sale_id)) with hrb2
      by_cases hpks : batch_2.map (fun l => l.pk) = []
      · rw [if_pos hpks] at hbi; simp at hbi
      · rw [if_neg hpks] at hbi hbj
        obtain ⟨j', rfl⟩ : ∃ j', j = j' + 1 := ⟨j - 1, by omega⟩
        simp only [List.getElem?_cons_succ] at hbj
        cases i with
        | zero =>
          have hbieq : batch_2.map (fun l => l.pk) = bi := by simpa using hbi
          subst hbieq
          rcases List.mem_map.mp hp1 with ⟨l1x, hl1x, hl1p⟩
          have hl1fil := List.mem_filter.mp (hrb2 ▸ hl1x)
          have hl1eq : l1x = l1 := List.inj_on_of_nodup_map hpk hl1fil.1 hl1 hl1p
          have h1le : l1.sale_id ≤ last_sale_id := by
            have hand := hl1fil.2
            simp only [Bool.and_eq_true, decide_eq_true_eq] at hand
            exact hl1eq ▸ hand.2
          have hp2f : l2.pk ∈ (channel_listing_in_batches_go B qs
              ((batch_2.getLastD default).sale_id) fuel).flatten :=
            List.mem_flatten.mpr ⟨bj, List.getElem?_mem hbj, hp2⟩
          rcases channel_go_mem_flatten B qs fuel _ l2.pk hp2f with
            ⟨l2x, hl2x, hl2p, hl2g⟩
          have hl2eq : l2x = l2 := List.inj_on_of_nodup_map hpk hl2x hl2 hl2p
          have hb2ne : batch_2 ≠ [] := fun h => hpks (by rw [h]; rfl)
          have he1 : ((qs.filter (fun l => decide (first < l.sale_id))).take B).getLastD
              default ∈ qs.filter (fun l => decide (first < l.sale_id)) :=
            List.mem_of_mem_take (getLastD_mem _ default hb1)
          have hefil := List.mem_filter.mp he1
          have heb2 : ((qs.filter (fun l => decide (first < l.sale_id))).take B).getLastD
              default ∈ batch_2 := by
            rw [hrb2]
            refine List.mem_filter.mpr ⟨hefil.1, ?_⟩
            simp only [Bool.and_eq_true, decide_eq_true_eq]
            exact ⟨of_decide_eq_true hefil.2, Nat.le_refl _⟩
          have hlastle : last_sale_id ≤ (batch_2.getLastD default).sale_id :=
            sorted_sale_le_getLastD batch_2 (hrb2 ▸ hsort.filter _) default _ heb2
          rw [← hl2eq]
          omega
        | succ i' =>
          simp only [List.getElem?_cons_succ] at hbi
          exact ih _ i' j' bi bj hbi hbj (by omega) l1 hl1 l2 hl2 hp1 hp2

/-- C4: for a channel-listing table ordered by sale id (with distinct
primary keys) and any batch size, two listings sharing a sale id are never
yielded by `channel_listing_in_batches` in two different batches. -/
theorem channel_listing_in_batches_no_split (B : Nat)
    (qs : List SaleChannelListing)
    (hsort : qs.Pairwise (fun a b => a.sale_id ≤ b.sale_id))
    (hpk : (qs.map (fun l => l.pk)).Nodup)
    (i j : Nat) (bi bj : List Nat)
    (hbi : (channel_listing_in_batches B qs)[i]? = some bi)
    (hbj : (channel_listing_in_batches B qs)[j]? = some bj)
    (hij : i ≠ j) (l1 : SaleChannelListing) (hl1 : l1 ∈ qs)
    (l2 : SaleChannelListing) (hl2 : l2 ∈ qs)
    (hp1 : l1.pk ∈ bi) (hp2 : l2.pk ∈ bj) :
    l1.sale_id ≠ l2.sale_id := by
  simp only [channel_listing_in_batches] at hbi hbj
  rcases Nat.lt_or_ge i j with h | h
  · exact channel_go_no_split B qs hsort hpk (qs.length + 1) 0 i j bi bj
      hbi hbj h l1 hl1 l2 hl2 hp1 hp2
  · exact (channel_go_no_split B qs hsort hpk (qs.length + 1) 0 j i bj bi
      hbj hbi (by omega) l2 hl2 l1 hl1 hp2 hp1).symm

/-- Witness for C4: with batch size 2, sale 1 owns three listings — more
than the batch size — and they all land in the first yielded batch
[1, 2, 3], disjoint from the batch of sale 2. -/
theorem channel_listing_in_batches_no_split_witness :
    ({ pk := 3, sale_id := 1, channel_id := 3, discount_value := 10 } :
      SaleChannelListing).sale_id ≠
    ({ pk := 4, sale_id := 2, channel_id := 1, discount_value := 20 } :
      SaleChannelListing).sale_id :=
  channel_listing_in_batches_no_split 2 listingsDemo (by decide) (by decide) 0 1
    [1, 2, 3] [4] (by decide) (by decide) (by decide) _ (by decide) _ (by decide)
    (by decide) (by decide)

end Saleor

namespace Saleor

/-- Helper: on a strictly sorted list, keeping the elements greater than the
last element of the first `B` ones drops exactly those first `B`. -/
theorem sorted_filter_gt_take_last : ∀ (rest : List Nat) (B : Nat), 1 ≤ B →
    List.Sorted (· < ·) rest → rest ≠ [] →
    rest.filter (fun pk => decide ((rest.take B).getLastD 0 < pk)) = rest.drop B := by
  intro rest
  induction rest with
  | nil => intro B hB _ hne; exact absurd rfl hne
  | cons x xs ih =>
    intro B hB hsort hne
    obtain ⟨B', rfl⟩ : ∃ B', B = B' + 1 := ⟨B - 1, by omega⟩
    rw [List.take_succ_cons, List.drop_succ_cons, List.getLastD_cons]
    have hxlt := (List.sorted_cons.mp hsort).1
    have hsort' := (List.sorted_cons.mp hsort).2
    cases xs with
    | nil =>
      simp
    | cons y ys =>
      cases B' with
      | zero =>
        simp only [List.take_zero, List.getLastD_nil, List.drop_zero]
        rw [List.filter_cons]
        simp only [decide_eq_false (lt_irrefl x), if_false]
        exact List.filter_eq_self.mpr (fun a ha => decide_eq_true (hxlt a ha))
      | succ B'' =>
        have hne2 : (y :: ys).take (B'' + 1) ≠ [] := by
          rw [List.take_succ_cons]; simp
        rw [getLastD_default_eq ((y :: ys).take (B'' + 1)) x 0 hne2]
        have hlast_mem : ((y :: ys).take (B'' + 1)).getLastD 0 ∈ y :: ys :=
          List.mem_of_mem_take (getLastD_mem _ 0 hne2)
        have hxlast : x < ((y :: ys).take (B'' + 1)).getLastD 0 := hxlt _ hlast_mem
        rw [List.filter_cons]
        simp only [decide_eq_false (lt_asymm hxlast), if_false]
        exact ih (B'' + 1) (by omega) hsort' (by simp)

/-- Helper: with enough fuel, on a strictly sorted table the keyset
pagination loop started from key `s` yields exactly the contiguous chunks of
the rows with key greater than `s`. -/
theorem queryset_go_eq_chunk (B : Nat) (hB : 1 ≤ B) (table : List Nat)
    (hsort : List.Sorted (· < ·) table) :
    ∀ (fuel : Nat) (s : Nat) (rest : List Nat),
      table.filter (fun pk => decide (s < pk)) = rest →
      rest.length < fuel →
      queryset_in_batches_go B table s fuel = chunk B rest := by
  intro fuel
  induction fuel with
  | zero => intro s rest _ hlen; omega
  | succ fuel ih =>
    intro s rest hrest hlen
    rw [queryset_in_batches_go]
    simp only [hrest]
    cases rest with
    | nil => simp [chunk]
    | cons r rs =>
      obtain ⟨B', rfl⟩ : ∃ B', B = B' + 1 := ⟨B - 1, by omega⟩
      have htake_ne : (r :: rs).take (B' + 1) ≠ [] := by
        rw [List.take_succ_cons]; simp
      rw [if_neg htake_ne]
      have hsrest : List.Sorted (· < ·) (r :: rs) := hrest ▸ hsort.filter _
      have hlast_mem : ((r :: rs).take (B' + 1)).getLastD 0 ∈ r :: rs :=
        List.mem_of_mem_take (getLastD_mem _ 0 htake_ne)
      have hslast : s < ((r :: rs).take (B' + 1)).getLastD 0 := by
        have hmem2 : ((r :: rs).take (B' + 1)).getLastD 0 ∈
            table.filter (fun pk => decide (s < pk)) := by
          rw [hrest]; exact hlast_mem
        exact of_decide_eq_true (List.mem_filter.mp hmem2).2
      have hfilter2 : table.filter
          (fun pk => decide (((r :: rs).take (B' + 1)).getLastD 0 < pk)) =
          (r :: rs).drop (B' + 1) := by
        have hcomp : (fun pk => decide (((r :: rs).take (B' + 1)).getLastD 0 < pk)) =
            (fun pk => decide (((r :: rs).take (B' + 1)).getLastD 0 < pk) &&
              decide (s < pk)) := by
          funext pk
          rcases Nat.lt_or_ge (((r :: rs).take (B' + 1)).getLastD 0) pk with h | h
          · simp only [decide_eq_true h, decide_eq_true (lt_trans hslast h),
              Bool.and_true]
          · simp only [decide_eq_false (Nat.not_lt.mpr h), Bool.false_and]
        rw [hcomp, ← List.filter_filter, hrest]
        exact sorted_filter_gt_take_last (r :: rs) (B' + 1) (by omega) hsrest (by simp)
      have hchunk : chunk (B' + 1) (r :: rs) =
          ((r :: rs).take (B' + 1)) :: chunk (B' + 1) ((r :: rs).drop (B' + 1)) := by
        rw [chunk, List.take_succ_cons, List.drop_succ_cons]
        simp only [Nat.add_sub_cancel]
      rw [hchunk]
      congr 1
      refine ih (((r :: rs).take (B' + 1)).getLastD 0) ((r :: rs).drop (B' + 1))
        hfilter2 ?_
      rw [List.drop_succ_cons]
      simp only [List.length_drop]
      simp only [List.length_cons] at hlen
      omega


/-- C3: over any table of N rows ordered by (positive) primary key and any
batch size B ≥ 1, the plain iterator `queryset_in_batches` yields exactly
ceil(N/B) batches whose concatenation is the table itself — every row
appears in exactly one batch, none is duplicated or skipped. -/
theorem queryset_in_batches_correct (B : Nat) (hB : 1 ≤ B) (table : List Nat)
    (hsort : List.Sorted (· < ·) table) (hpos : ∀ pk ∈ table, 0 < pk) :
    (queryset_in_batches B table).flatten = table ∧
    (queryset_in_batches B table).length = (table.length + B - 1) / B ∧
    ∀ pk ∈ table, (queryset_in_batches B table).flatten.count pk = 1 := by
  have h0 : table.filter (fun pk => decide (0 < pk)) = table :=
    List.filter_eq_self.mpr (fun pk hpk => decide_eq_true (hpos pk hpk))
  have he : queryset_in_batches B table = chunk B table :=
    queryset_go_eq_chunk B hB table hsort (table.length + 1) 0 table h0 (by omega)
  refine ⟨?_, ?_, ?_⟩
  · rw [he, chunk_flatten]
  · rw [he, chunk_length B hB]
  · intro pk hpk
    rw [he, chunk_flatten]
    exact List.count_eq_one_of_mem hsort.nodup hpk

/-- Witness for C3: three rows with batch size two give two batches covering
each row exactly once. -/
theorem queryset_in_batches_correct_witness :
    (queryset_in_batches 2 [1, 2, 3]).flatten = [1, 2, 3] ∧
    (queryset_in_batches 2 [1, 2, 3]).length = 2 := by
  have h := queryset_in_batches_correct 2 (by decide) [1, 2, 3] (by decide) (by decide)
  exact ⟨h.1, h.2.1⟩

/-- Helper: a count splits over a boolean test and its negation. -/
theorem countP_and_not_add (l : List SaleChannelListing)
    (p q : SaleChannelListing → Bool) :
    l.countP (fun x => p x && !q x) + l.countP (fun x => p x && q x) =
      l.countP p := by
  induction l with
  | nil => simp
  | cons a t ih =>
    simp only [List.countP_cons]
    cases hp : p a <;> cases hq : q a <;> simp [hp, hq] <;> omega

/-- Helper: counting over the sale-id interval (a, b] and over (b, ∞) adds up to counting over (a, ∞). -/
theorem filter_sale_split (l : List SaleChannelListing)
    (φ : SaleChannelListing → Bool) (a b : Nat) (hab : a ≤ b) :
    (l.filter (fun x => decide (a < x.sale_id) && decide (x.sale_id ≤ b))).countP φ +
      (l.filter (fun x => decide (b < x.sale_id))).countP φ =
      (l.filter (fun x => decide (a < x.sale_id))).countP φ := by
  induction l with
  | nil => simp
  | cons x t ih =>
    by_cases h1 : a < x.sale_id <;> by_cases h2 : x.sale_id ≤ b
    · have h3 : ¬ b < x.sale_id := by omega
      simp [List.filter_cons, List.countP_cons, h1, h2, h3]
      omega
    · have h3 : b < x.sale_id := by omega
      simp [List.filter_cons, List.countP_cons, h1, h2, h3]
      omega
    · have h3 : ¬ b < x.sale_id := by omega
      simp [List.filter_cons, h1, h2, h3]
      omega
    · exact (by omega : False).elim



/-- Helper: a sale table sorted by id has no duplicate ids. -/
theorem sales_id_nodup (db_sales : List Sale)
    (hs : db_sales.Pairwise (fun a b => a.id < b.id)) :
    (db_sales.map (fun t => t.id)).Nodup :=
  List.pairwise_map.mpr (hs.imp fun h => Nat.ne_of_lt h)

/-- Helper: in a sorted sale table, the id determines the row. -/
theorem sale_id_inj (db_sales : List Sale)
    (hs : db_sales.Pairwise (fun a b => a.id < b.id)) (a b : Sale)
    (ha : a ∈ db_sales) (hb : b ∈ db_sales) (hab : a.id = b.id) : a = b :=
  List.inj_on_of_nodup_map (sales_id_nodup db_sales hs) ha hb hab

/-- Helper: a sorted sale table holds exactly one row with a member row's id. -/
theorem countP_sales_id_eq_one (s : Sale) : ∀ (db_sales : List Sale),
    db_sales.Pairwise (fun a b => a.id < b.id) → s ∈ db_sales →
    db_sales.countP (fun t => decide (t.id = s.id)) = 1 := by
  intro db_sales
  induction db_sales with
  | nil => intro _ hsmem; simp at hsmem
  | cons u rest ih =>
    intro hs hsmem
    have hpair := List.pairwise_cons.mp hs
    rcases List.mem_cons.mp hsmem with rfl | hsr
    · rw [List.countP_cons]
      have h0 : rest.countP (fun t => decide (t.id = s.id)) = 0 :=
        List.countP_eq_zero.mpr (fun t ht => by
          simp only [decide_eq_true_eq]
          exact fun he => Nat.lt_irrefl _ (he ▸ hpair.1 t ht))
      rw [h0]
      simp
    · rw [List.countP_cons, ih hpair.2 hsr]
      have hne : ¬ (u.id = s.id) := fun he =>
        Nat.lt_irrefl _ (he ▸ hpair.1 s hsr)
      simp [hne]

/-- Helper: filtering a sorted sale table by a pk list and counting rows matching a member sale's id yields 1 exactly when that id is in the list. -/
theorem countP_sales_filter_mem (db_sales : List Sale)
    (hs : db_sales.Pairwise (fun a b => a.id < b.id)) (s : Sale)
    (hsmem : s ∈ db_sales) (pks : List Nat) (p : Sale → Bool)
    (hp : ∀ t ∈ db_sales, t.id ∈ pks → p t = decide (t.id = s.id)) :
    (db_sales.filter (fun t => decide (t.id ∈ pks))).countP p =
      if s.id ∈ pks then 1 else 0 := by
  rw [List.countP_filter]
  by_cases hmem : s.id ∈ pks
  · rw [if_pos hmem, List.countP_congr (q := fun t => decide (t.id = s.id))
      (fun t ht => by
        by_cases htp : t.id ∈ pks
        · rw [hp t ht htp]
          by_cases hts : t.id = s.id
          · simp [hts, hmem]
          · simp [hts]
        · rw [decide_eq_false htp]
          simp only [Bool.and_false, decide_eq_true_eq]
          constructor
          · intro hfalse
            exact absurd hfalse (by simp)
          · intro hts
            exact absurd (hts ▸ hmem) htp)]
    exact countP_sales_id_eq_one s db_sales hs hsmem
  · rw [if_neg hmem]
    refine List.countP_eq_zero.mpr (fun t ht h => ?_)
    rw [Bool.and_eq_true] at h
    have htp := of_decide_eq_true h.2
    have h1 := h.1
    rw [hp t ht htp] at h1
    exact hmem ((of_decide_eq_true h1) ▸ htp)

/-- Helper: dereferencing a member sale's own id gives that sale back. -/
theorem findSale_self (db_sales : List Sale)
    (hs : db_sales.Pairwise (fun a b => a.id < b.id)) (t : Sale)
    (ht : t ∈ db_sales) : findSale db_sales t.id = t := by
  unfold findSale
  cases hf : db_sales.find? (fun u => u.id == t.id) with
  | none =>
    exact absurd (by simp : (t.id == t.id) = true)
      (List.find?_eq_none.mp hf t ht)
  | some u =>
    have hu := List.find?_some hf
    simp only [beq_iff_eq] at hu
    exact sale_id_inj db_sales hs u t (List.mem_of_find?_eq_some hf) ht hu

/-- Helper: under foreign-key integrity, the dereferenced sale carries the requested id. -/
theorem findSale_id (db_sales : List Sale) (sid : Nat)
    (hex : ∃ t ∈ db_sales, t.id = sid) : (findSale db_sales sid).id = sid := by
  unfold findSale
  cases hf : db_sales.find? (fun u => u.id == sid) with
  | none =>
    rcases hex with ⟨t, ht, hts⟩
    exact absurd (by simp [hts] : (t.id == sid) = true)
      (List.find?_eq_none.mp hf t ht)
  | some u =>
    have hu := List.find?_some hf
    simpa using hu

/-- Helper: the promotion map lookup returns the promotion converted from the dereferenced sale, whenever the key is in the batch and refers to an existing sale. -/
theorem promo_map_get_eq (db_sales : List Sale) (pks : List Nat) (sid : Nat)
    (hsid : sid ∈ pks) (hex : ∃ t ∈ db_sales, t.id = sid) :
    promo_map_get (migrate_sales_to_promotions db_sales pks) sid =
      convert_sale_into_promotion (findSale db_sales sid) := by
  induction db_sales with
  | nil => simp at hex
  | cons u rest ih =>
    by_cases hu : u.id = sid
    · unfold promo_map_get migrate_sales_to_promotions findSale
      rw [List.filter_cons]
      simp only [hu, decide_eq_true (hsid : sid ∈ pks)]
      simp [List.find?_cons, hu]
    · unfold promo_map_get migrate_sales_to_promotions findSale
      rw [List.filter_cons]
      have hex' : ∃ t ∈ rest, t.id = sid := by
        rcases hex with ⟨t, ht, hts⟩
        rcases List.mem_cons.mp ht with rfl | htr
        · exact absurd hts hu
        · exact ⟨t, htr, hts⟩
      by_cases humem : u.id ∈ pks
      · simp only [decide_eq_true humem, if_true]
        rw [List.map_cons]
        simp only [List.find?_cons]
        have : (u.id == sid) = false := by simp [hu]
        simp only [this]
        have hh := ih hex'
        unfold promo_map_get migrate_sales_to_promotions findSale at hh
        simpa [this] using hh
      · simp only [decide_eq_false humem, Bool.false_eq_true, if_false]
        have : (u.id == sid) = false := by simp [hu]
        simp only [List.find?_cons, this]
        have hh := ih hex'
        unfold promo_map_get migrate_sales_to_promotions findSale at hh
        simpa [this] using hh



/-- Helper: refetching rows of a filter result by their primary keys gives back the filter result. -/
theorem refetch_by_pks (db_listings : List SaleChannelListing)
    (hl_pk : (db_listings.map (fun l => l.pk)).Nodup)
    (ψ : SaleChannelListing → Bool) :
    db_listings.filter (fun l =>
      decide (l.pk ∈ (db_listings.filter ψ).map (fun x => x.pk))) =
      db_listings.filter ψ := by
  apply List.filter_congr
  intro l hl
  by_cases hψ : ψ l = true
  · rw [hψ]
    exact decide_eq_true (List.mem_map.mpr ⟨l, List.mem_filter.mpr ⟨hl, hψ⟩, rfl⟩)
  · have : ¬ l.pk ∈ (db_listings.filter ψ).map (fun x => x.pk) := by
      intro hmem
      rcases List.mem_map.mp hmem with ⟨lx, hlx, hpx⟩
      have hlx2 := List.mem_filter.mp hlx
      have : lx = l := List.inj_on_of_nodup_map hl_pk hlx2.1 hl hpx
      exact hψ (this ▸ hlx2.2)
    rw [Bool.not_eq_true] at hψ
    rw [hψ]
    exact decide_eq_false this

/-- Helper: the promotions a listing batch creates are the conversions of the sales whose id occurs among the batch listings' sale ids. -/
theorem batch_promotions_of_filter (db_sales : List Sale)
    (db_listings : List SaleChannelListing)
    (hl_pk : (db_listings.map (fun l => l.pk)).Nodup)
    (ψ : SaleChannelListing → Bool) :
    batch_promotions db_sales db_listings
        ((db_listings.filter ψ).map (fun l => l.pk)) =
      (db_sales.filter (fun t =>
        decide (t.id ∈ (db_listings.filter ψ).map (fun l => l.sale_id)))).map
        convert_sale_into_promotion := by
  unfold batch_promotions migrate_sales_to_promotions
  rw [refetch_by_pks db_listings hl_pk ψ, List.map_map]
  rfl

/-- Helper: the rules a listing batch creates are exactly one canonical rule per batch listing. -/
theorem batch_rules_of_filter (db_sales : List Sale)
    (db_listings : List SaleChannelListing)
    (hl_pk : (db_listings.map (fun l => l.pk)).Nodup)
    (hfk : ∀ l ∈ db_listings, ∃ t ∈ db_sales, t.id = l.sale_id)
    (ψ : SaleChannelListing → Bool) :
    batch_rules db_sales db_listings
        ((db_listings.filter ψ).map (fun l => l.pk)) =
      (db_listings.filter ψ).map (ruleFor db_sales) := by
  unfold batch_rules migrate_sale_listing_to_promotion_rules
  rw [refetch_by_pks db_listings hl_pk ψ, List.map_map]
  apply List.map_congr_left
  intro l hl
  have hmem_sid : l.sale_id ∈ (db_listings.filter ψ).map (fun x => x.sale_id) :=
    List.mem_map.mpr ⟨l, hl, rfl⟩
  have hex : ∃ t ∈ db_sales, t.id = l.sale_id :=
    hfk l (List.mem_of_mem_filter hl)
  have hpm := promo_map_get_eq db_sales
    ((db_listings.filter ψ).map (fun x => x.sale_id)) l.sale_id hmem_sid hex
  simp [Function.comp, ruleFor, hpm]

/-- Helper: the listing-batch loop only appends promotions, batch by batch. -/
theorem foldl_listing_promotions (db_sales : List Sale)
    (db_listings : List SaleChannelListing) :
    ∀ (bs : List (List Nat)) (st : MigrationState),
      (bs.foldl (process_listing_batch db_sales db_listings) st).promotions =
        st.promotions ++ (bs.map (batch_promotions db_sales db_listings)).flatten := by
  intro bs
  induction bs with
  | nil => intro st; simp
  | cons b t ih =>
    intro st
    rw [List.foldl_cons, ih]
    rw [show (process_listing_batch db_sales db_listings st b).promotions =
      st.promotions ++ batch_promotions db_sales db_listings b from rfl]
    simp [List.append_assoc]

/-- Helper: the listing-batch loop only appends rules, batch by batch. -/
theorem foldl_listing_rules (db_sales : List Sale)
    (db_listings : List SaleChannelListing) :
    ∀ (bs : List (List Nat)) (st : MigrationState),
      (bs.foldl (process_listing_batch db_sales db_listings) st).rules =
        st.rules ++ (bs.map (batch_rules db_sales db_listings)).flatten := by
  intro bs
  induction bs with
  | nil => intro st; simp
  | cons b t ih =>
    intro st
    rw [List.foldl_cons, ih]
    rw [show (process_listing_batch db_sales db_listings st b).rules =
      st.rules ++ batch_rules db_sales db_listings b from rfl]
    simp [List.append_assoc]

/-- Helper: the zero-listing loop only appends promotions, batch by batch. -/
theorem foldl_unlisted_promotions (db_sales : List Sale) :
    ∀ (bs : List (List Nat)) (st : MigrationState),
      (bs.foldl (process_unlisted_batch db_sales) st).promotions =
        st.promotions ++ (bs.map (unlisted_batch_promotions db_sales)).flatten := by
  intro bs
  induction bs with
  | nil => intro st; simp
  | cons b t ih =>
    intro st
    rw [List.foldl_cons, ih]
    rw [show (process_unlisted_batch db_sales st b).promotions =
      st.promotions ++ unlisted_batch_promotions db_sales b from rfl]
    simp [List.append_assoc]

/-- Helper: the zero-listing loop only appends rules, batch by batch. -/
theorem foldl_unlisted_rules (db_sales : List Sale) :
    ∀ (bs : List (List Nat)) (st : MigrationState),
      (bs.foldl (process_unlisted_batch db_sales) st).rules =
        st.rules ++ (bs.map (unlisted_batch_rules db_sales)).flatten := by
  intro bs
  induction bs with
  | nil => intro st; simp
  | cons b t ih =>
    intro st
    rw [List.foldl_cons, ih]
    rw [show (process_unlisted_batch db_sales st b).rules =
      st.rules ++ unlisted_batch_rules db_sales b from rfl]
    simp [List.append_assoc]



/-- Helper: the extended window is non-empty and its last row carries the window's closing sale id. -/
theorem batch2_facts (db_listings : List SaleChannelListing)
    (hl_sorted : db_listings.Pairwise (fun a b => a.sale_id ≤ b.sale_id))
    (first last : Nat) (e : SaleChannelListing) (he_mem : e ∈ db_listings)
    (he1 : first < e.sale_id) (he2 : e.sale_id = last) :
    db_listings.filter (fun l =>
      decide (first < l.sale_id) && decide (l.sale_id ≤ last)) ≠ [] ∧
    ((db_listings.filter (fun l =>
      decide (first < l.sale_id) && decide (l.sale_id ≤ last))).getLastD
        default).sale_id = last := by
  have heb2 : e ∈ db_listings.filter (fun l =>
      decide (first < l.sale_id) && decide (l.sale_id ≤ last)) := by
    refine List.mem_filter.mpr ⟨he_mem, ?_⟩
    rw [Bool.and_eq_true]
    exact ⟨decide_eq_true he1, decide_eq_true (by omega)⟩
  have hb2ne : db_listings.filter (fun l =>
      decide (first < l.sale_id) && decide (l.sale_id ≤ last)) ≠ [] :=
    List.ne_nil_of_mem heb2
  refine ⟨hb2ne, ?_⟩
  have h1 : ((db_listings.filter (fun l =>
      decide (first < l.sale_id) && decide (l.sale_id ≤ last))).getLastD
        default).sale_id ≤ last := by
    have hmem := getLastD_mem _ default hb2ne
    have := (List.mem_filter.mp hmem).2
    rw [Bool.and_eq_true] at this
    exact of_decide_eq_true this.2
  have h2 : e.sale_id ≤ ((db_listings.filter (fun l =>
      decide (first < l.sale_id) && decide (l.sale_id ≤ last))).getLastD
        default).sale_id :=
    sorted_sale_le_getLastD _ (hl_sorted.filter _) default e heb2
  omega

/-- Helper: over a sorted listing table, the rules created by the whole listing-batch loop started after sale id `first` count, under any pointwise-corresponding pair of predicates, exactly as the listings with sale id above `first`. -/
theorem phase1_rules_count (db_sales : List Sale)
    (db_listings : List SaleChannelListing)
    (hl_sorted : db_listings.Pairwise (fun a b => a.sale_id ≤ b.sale_id))
    (hl_pk : (db_listings.map (fun l => l.pk)).Nodup)
    (hfk : ∀ l ∈ db_listings, ∃ t ∈ db_sales, t.id = l.sale_id)
    (B : Nat) (hB : 1 ≤ B)
    (φL : SaleChannelListing → Bool) (φR : PromotionRule → Bool)
    (hφ : ∀ l ∈ db_listings, φR (ruleFor db_sales l) = φL l) :
    ∀ (fuel first : Nat),
      (db_listings.filter (fun l => decide (first < l.sale_id))).length < fuel →
      (((channel_listing_in_batches_go B db_listings first fuel).map
        (batch_rules db_sales db_listings)).flatten).countP φR =
      (db_listings.filter (fun l => decide (first < l.sale_id))).countP φL := by
  intro fuel
  induction fuel with
  | zero => intro first hfuel; omega
  | succ fuel ih =>
    intro first hfuel
    rw [channel_listing_in_batches_go]
    by_cases hb1 : (db_listings.filter
        (fun l => decide (first < l.sale_id))).take B = []
    · rw [if_pos hb1]
      have hrest : db_listings.filter (fun l => decide (first < l.sale_id)) = [] := by
        rcases List.take_eq_nil_iff.mp hb1 with h | h
        · exact (by omega : False).elim
        · exact h
      rw [hrest]
      simp
    · rw [if_neg hb1]
      have he_mem : ((db_listings.filter
          (fun l => decide (first < l.sale_id))).take B).getLastD default ∈
          db_listings.filter (fun l => decide (first < l.sale_id)) :=
        List.mem_of_mem_take (getLastD_mem _ default hb1)
      have hefil := List.mem_filter.mp he_mem
      have hfirst : first < (((db_listings.filter
          (fun l => decide (first < l.sale_id))).take B).getLastD default).sale_id :=
        of_decide_eq_true hefil.2
      have hfacts := batch2_facts db_listings hl_sorted first
        (((db_listings.filter
          (fun l => decide (first < l.sale_id))).take B).getLastD default).sale_id
        (((db_listings.filter
          (fun l => decide (first < l.sale_id))).take B).getLastD default)
        hefil.1 hfirst rfl
      have hpks_ne : (db_listings.filter (fun l =>
          decide (first < l.sale_id) && decide (l.sale_id ≤
            (((db_listings.filter (fun l => decide (first < l.sale_id))).take
              B).getLastD default).sale_id))).map (fun l => l.pk) ≠ [] := by
        intro hmap
        exact hfacts.1 (List.map_eq_nil_iff.mp hmap)
      rw [if_neg hpks_ne]
      rw [List.map_cons, List.flatten_cons, List.countP_append]
      rw [batch_rules_of_filter db_sales db_listings hl_pk hfk _]
      rw [List.countP_map]
      rw [List.countP_congr (fun l hl => by
        rw [Function.comp_apply, hφ l (List.mem_of_mem_filter hl)])]
      rw [hfacts.2]
      have hlen : (db_listings.filter (fun l =>
          decide ((((db_listings.filter (fun l => decide (first < l.sale_id))).take
            B).getLastD default).sale_id < l.sale_id))).length < fuel := by
        have hsplit := filter_sale_split db_listings (fun _ => true) first
          (((db_listings.filter (fun l => decide (first < l.sale_id))).take
            B).getLastD default).sale_id (by omega)
        simp only [List.countP_true] at hsplit
        have hpos : 0 < (db_listings.filter (fun l =>
            decide (first < l.sale_id) && decide (l.sale_id ≤
              (((db_listings.filter (fun l => decide (first < l.sale_id))).take
                B).getLastD default).sale_id))).length :=
          List.length_pos.mpr hfacts.1
        omega
      rw [ih _ hlen]
      exact filter_sale_split db_listings φL first _ (by omega)



/-- Helper: the promotions created by the listing-batch loop started after sale id `first` contain exactly one promotion for a sale iff that sale has a listing with sale id above `first`. -/
theorem phase1_promos_count (db_sales : List Sale)
    (db_listings : List SaleChannelListing)
    (hs_sorted : db_sales.Pairwise (fun a b => a.id < b.id))
    (hl_sorted : db_listings.Pairwise (fun a b => a.sale_id ≤ b.sale_id))
    (hl_pk : (db_listings.map (fun l => l.pk)).Nodup)
    (B : Nat) (hB : 1 ≤ B) (s : Sale) (hsmem : s ∈ db_sales) :
    ∀ (fuel first : Nat),
      (db_listings.filter (fun l => decide (first < l.sale_id))).length < fuel →
      (((channel_listing_in_batches_go B db_listings first fuel).map
        (batch_promotions db_sales db_listings)).flatten).countP
          (fun p => decide (p.old_sale_id = s.id)) =
      if first < s.id ∧ s.id ∈ db_listings.map (fun l => l.sale_id) then 1
      else 0 := by
  intro fuel
  induction fuel with
  | zero => intro first hfuel; omega
  | succ fuel ih =>
    intro first hfuel
    rw [channel_listing_in_batches_go]
    by_cases hb1 : (db_listings.filter
        (fun l => decide (first < l.sale_id))).take B = []
    · rw [if_pos hb1]
      have hrest : db_listings.filter (fun l => decide (first < l.sale_id)) = [] := by
        rcases List.take_eq_nil_iff.mp hb1 with h | h
        · exact (by omega : False).elim
        · exact h
      have hno : ¬ (first < s.id ∧ s.id ∈ db_listings.map (fun l => l.sale_id)) := by
        rintro ⟨hfs, hmem⟩
        rcases List.mem_map.mp hmem with ⟨l, hl, hls⟩
        have : l ∈ db_listings.filter (fun l => decide (first < l.sale_id)) :=
          List.mem_filter.mpr ⟨hl, decide_eq_true (by omega)⟩
        rw [hrest] at this
        simp at this
      rw [if_neg hno]
      simp
    · rw [if_neg hb1]
      have he_mem : ((db_listings.filter
          (fun l => decide (first < l.sale_id))).take B).getLastD default ∈
          db_listings.filter (fun l => decide (first < l.sale_id)) :=
        List.mem_of_mem_take (getLastD_mem _ default hb1)
      have hefil := List.mem_filter.mp he_mem
      have hfirst : first < (((db_listings.filter
          (fun l => decide (first < l.sale_id))).take B).getLastD default).sale_id :=
        of_decide_eq_true hefil.2
      have hfacts := batch2_facts db_listings hl_sorted first
        (((db_listings.filter
          (fun l => decide (first < l.sale_id))).take B).getLastD default).sale_id
        (((db_listings.filter
          (fun l => decide (first < l.sale_id))).take B).getLastD default)
        hefil.1 hfirst rfl
      have hpks_ne : (db_listings.filter (fun l =>
          decide (first < l.sale_id) && decide (l.sale_id ≤
            (((db_listings.filter (fun l => decide (first < l.sale_id))).take
              B).getLastD default).sale_id))).map (fun l => l.pk) ≠ [] := by
        intro hmap
        exact hfacts.1 (List.map_eq_nil_iff.mp hmap)
      rw [if_neg hpks_ne]
      rw [List.map_cons, List.flatten_cons, List.countP_append]
      rw [batch_promotions_of_filter db_sales db_listings hl_pk _]
      rw [List.countP_map]
      rw [countP_sales_filter_mem db_sales hs_sorted s hsmem _
        ((fun (p : Promotion) => decide (p.old_sale_id = s.id)) ∘
          convert_sale_into_promotion)
        (fun t ht hm => rfl)]
      have hlen : (db_listings.filter (fun l =>
          decide ((((db_listings.filter (fun l => decide (first < l.sale_id))).take
            B).getLastD default).sale_id < l.sale_id))).length < fuel := by
        have hsplit := filter_sale_split db_listings (fun _ => true) first
          (((db_listings.filter (fun l => decide (first < l.sale_id))).take
            B).getLastD default).sale_id (by omega)
        simp only [List.countP_true] at hsplit
        have hpos : 0 < (db_listings.filter (fun l =>
            decide (first < l.sale_id) && decide (l.sale_id ≤
              (((db_listings.filter (fun l => decide (first < l.sale_id))).take
                B).getLastD default).sale_id))).length :=
          List.length_pos.mpr hfacts.1
        omega
      rw [hfacts.2, ih _ hlen]
      have hmemiff : s.id ∈ (db_listings.filter (fun l =>
          decide (first < l.sale_id) && decide (l.sale_id ≤
            (((db_listings.filter (fun l => decide (first < l.sale_id))).take
              B).getLastD default).sale_id))).map (fun l => l.sale_id) ↔
          (first < s.id ∧ s.id ≤ (((db_listings.filter
            (fun l => decide (first < l.sale_id))).take B).getLastD
              default).sale_id ∧
            s.id ∈ db_listings.map (fun l => l.sale_id)) := by
        constructor
        · rintro hmem
          rcases List.mem_map.mp hmem with ⟨l, hl, hls⟩
          have hfil := List.mem_filter.mp hl
          have hand := hfil.2
          rw [Bool.and_eq_true] at hand
          have h1 := of_decide_eq_true hand.1
          have h2 := of_decide_eq_true hand.2
          exact ⟨by omega, by omega, List.mem_map.mpr ⟨l, hfil.1, hls⟩⟩
        · rintro ⟨h1, h2, hmem⟩
          rcases List.mem_map.mp hmem with ⟨l, hl, hls⟩
          refine List.mem_map.mpr ⟨l, List.mem_filter.mpr ⟨hl, ?_⟩, hls⟩
          rw [Bool.and_eq_true]
          exact ⟨decide_eq_true (by omega), decide_eq_true (by omega)⟩
      by_cases hm : s.id ∈ db_listings.map (fun l => l.sale_id)
      · rcases Nat.lt_or_ge (((db_listings.filter
            (fun l => decide (first < l.sale_id))).take B).getLastD
              default).sale_id s.id with hpos2 | hpos2
        · rw [if_neg (fun hA => by
              have := hmemiff.mp hA
              omega),
            if_pos ⟨hpos2, hm⟩, if_pos ⟨by omega, hm⟩]
        · by_cases hf2 : first < s.id
          · rw [if_pos (hmemiff.mpr ⟨hf2, by omega, hm⟩),
              if_neg (fun hB2 => by omega),
              if_pos ⟨hf2, hm⟩]
          · rw [if_neg (fun hA => by
                have := hmemiff.mp hA
                omega),
              if_neg (fun hB2 => by
                rcases hB2 with ⟨hB2a, _⟩
                omega),
              if_neg (fun hC => by
                rcases hC with ⟨hCa, _⟩
                omega)]
      · rw [if_neg (fun hA => hm (hmemiff.mp hA).2.2),
          if_neg (fun hB2 => hm hB2.2), if_neg (fun hC => hm hC.2)]



/-- Helper: over disjoint duplicate-free batches, membership indicators sum to the flattened membership indicator. -/
theorem sum_ifmem_batches (x : Nat) : ∀ (bs : List (List Nat)),
    bs.flatten.Nodup →
    (bs.map (fun b => if x ∈ b then 1 else 0)).sum =
      if x ∈ bs.flatten then 1 else 0 := by
  intro bs
  induction bs with
  | nil => intro _; simp
  | cons b t ih =>
    intro hnodup
    rw [List.map_cons, List.sum_cons, List.flatten_cons]
    rw [List.flatten_cons] at hnodup
    have hnd := List.nodup_append.mp hnodup
    rw [ih hnd.2.1]
    by_cases hx : x ∈ b
    · have hnx : x ∉ t.flatten := fun hmem => hnd.2.2 hx hmem
      rw [if_pos hx, if_neg hnx, if_pos (List.mem_append.mpr (Or.inl hx))]
    · rw [if_neg hx]
      by_cases hx2 : x ∈ t.flatten
      · rw [if_pos hx2, if_pos (List.mem_append.mpr (Or.inr hx2))]
      · rw [if_neg hx2, if_neg (fun hmem => by
          rcases List.mem_append.mp hmem with h | h
          · exact hx h
          · exact hx2 h)]

/-- Helper: a per-batch count that is a membership indicator sums over all plain-iterator batches to the table membership indicator. -/
theorem count_over_batches {α : Type} (B : Nat) (hB : 1 ≤ B)
    (pks_table : List Nat) (hsort : List.Sorted (· < ·) pks_table)
    (hpos : ∀ pk ∈ pks_table, 0 < pk) (F : List Nat → List α) (p : α → Bool)
    (x : Nat)
    (hF : ∀ b ∈ queryset_in_batches B pks_table,
      (F b).countP p = if x ∈ b then 1 else 0) :
    (((queryset_in_batches B pks_table).map F).flatten).countP p =
      if x ∈ pks_table then 1 else 0 := by
  have h0 : pks_table.filter (fun pk => decide (0 < pk)) = pks_table :=
    List.filter_eq_self.mpr (fun pk hpk => decide_eq_true (hpos pk hpk))
  have he : queryset_in_batches B pks_table = chunk B pks_table :=
    queryset_go_eq_chunk B hB pks_table hsort (pks_table.length + 1) 0 pks_table
      h0 (by omega)
  rw [List.countP_flatten, List.map_map]
  rw [List.map_congr_left (fun b hb => by
    rw [Function.comp_apply, hF b hb])]
  rw [sum_ifmem_batches x _ (by rw [he, chunk_flatten]; exact hsort.nodup)]
  rw [he, chunk_flatten]

/-- Helper: the rules a zero-listing batch creates are one rule per batch sale, owned by that sale's converted promotion, with no value and no channel. -/
theorem unlisted_batch_rules_eq (db_sales : List Sale)
    (hs_sorted : db_sales.Pairwise (fun a b => a.id < b.id)) (b : List Nat) :
    unlisted_batch_rules db_sales b =
      (db_sales.filter (fun t => decide (t.id ∈ b))).map
        (fun t => create_promotion_rule t (convert_sale_into_promotion t) none) := by
  unfold unlisted_batch_rules migrate_sales_to_promotion_rules
  apply List.map_congr_left
  intro t ht
  have hfil := List.mem_filter.mp ht
  have htb : t.id ∈ b := of_decide_eq_true hfil.2
  have hpm := promo_map_get_eq db_sales b t.id htb ⟨t, hfil.1, rfl⟩
  rw [hpm, findSale_self db_sales hs_sorted t hfil.1]



/-- Helper: the zero-listing loop creates exactly one promotion per table sale id. -/
theorem phase2_promos_count (db_sales : List Sale)
    (hs_sorted : db_sales.Pairwise (fun a b => a.id < b.id)) (s : Sale)
    (hsmem : s ∈ db_sales) (B : Nat) (hB : 1 ≤ B) (pks_table : List Nat)
    (hsort : List.Sorted (· < ·) pks_table) (hpos : ∀ pk ∈ pks_table, 0 < pk) :
    (((queryset_in_batches B pks_table).map
      (unlisted_batch_promotions db_sales)).flatten).countP
        (fun p => decide (p.old_sale_id = s.id)) =
      if s.id ∈ pks_table then 1 else 0 :=
  count_over_batches B hB pks_table hsort hpos _ _ s.id (fun b _ => by
    unfold unlisted_batch_promotions migrate_sales_to_promotions
    rw [List.map_map, List.countP_map]
    exact countP_sales_filter_mem db_sales hs_sorted s hsmem b _
      (fun t _ _ => rfl))

/-- Helper: the zero-listing loop creates exactly one rule per table sale id. -/
theorem phase2_rules_count_plain (db_sales : List Sale)
    (hs_sorted : db_sales.Pairwise (fun a b => a.id < b.id)) (s : Sale)
    (hsmem : s ∈ db_sales) (B : Nat) (hB : 1 ≤ B) (pks_table : List Nat)
    (hsort : List.Sorted (· < ·) pks_table) (hpos : ∀ pk ∈ pks_table, 0 < pk) :
    (((queryset_in_batches B pks_table).map
      (unlisted_batch_rules db_sales)).flatten).countP
        (fun r => decide (r.promotion.old_sale_id = s.id)) =
      if s.id ∈ pks_table then 1 else 0 :=
  count_over_batches B hB pks_table hsort hpos _ _ s.id (fun b _ => by
    rw [unlisted_batch_rules_eq db_sales hs_sorted b, List.countP_map]
    exact countP_sales_filter_mem db_sales hs_sorted s hsmem b _
      (fun t _ _ => rfl))

/-- Helper: the zero-listing loop's one rule per table sale id has no discount value and no channel. -/
theorem phase2_rules_count_refined (db_sales : List Sale)
    (hs_sorted : db_sales.Pairwise (fun a b => a.id < b.id)) (s : Sale)
    (hsmem : s ∈ db_sales) (B : Nat) (hB : 1 ≤ B) (pks_table : List Nat)
    (hsort : List.Sorted (· < ·) pks_table) (hpos : ∀ pk ∈ pks_table, 0 < pk) :
    (((queryset_in_batches B pks_table).map
      (unlisted_batch_rules db_sales)).flatten).countP
        (fun r => decide (r.promotion.old_sale_id = s.id ∧
          r.reward_value = none ∧ r.channels = [])) =
      if s.id ∈ pks_table then 1 else 0 :=
  count_over_batches B hB pks_table hsort hpos _ _ s.id (fun b _ => by
    rw [unlisted_batch_rules_eq db_sales hs_sorted b, List.countP_map]
    refine countP_sales_filter_mem db_sales hs_sorted s hsmem b _
      (fun t _ _ => ?_)
    rw [Function.comp_apply, decide_eq_decide]
    simp [create_promotion_rule, convert_sale_into_promotion])

/-- Helper: the zero-listing loop creates no rule with a concrete channel and discount value. -/
theorem phase2_rules_count_cv (db_sales : List Sale)
    (hs_sorted : db_sales.Pairwise (fun a b => a.id < b.id)) (s : Sale)
    (B : Nat) (pks_table : List Nat) (c : Nat) (v : Int) :
    (((queryset_in_batches B pks_table).map
      (unlisted_batch_rules db_sales)).flatten).countP
        (fun r => decide (r.promotion.old_sale_id = s.id ∧
          r.channels = [c] ∧ r.reward_value = some v)) = 0 := by
  rw [List.countP_flatten, List.map_map]
  rw [List.map_congr_left (g := fun _ => 0) (fun b _ => by
    rw [Function.comp_apply, unlisted_batch_rules_eq db_sales hs_sorted b,
      List.countP_map]
    refine List.countP_eq_zero.mpr (fun t _ h => ?_)
    rw [Function.comp_apply] at h
    have := of_decide_eq_true h
    have h2 := this.2.2
    simp [create_promotion_rule] at h2)]
  simp



/-- C1: after `convert_sales_to_promotions` runs over the sale and listing
tables, every sale has exactly one Promotion carrying its id as
`old_sale_id`; a sale with listings gets exactly one PromotionRule per
listing, matching that listing's discount value and channel; and a sale
with no listing gets exactly one PromotionRule, with no discount value and
no channel. -/
theorem convert_sales_to_promotions_correct (db_sales : List Sale)
    (db_listings : List SaleChannelListing)
    (order_discounts : List OrderLineDiscount)
    (checkout_discounts : List CheckoutLineDiscount)
    (hs_sorted : db_sales.Pairwise (fun a b => a.id < b.id))
    (hs_pos : ∀ t ∈ db_sales, 0 < t.id)
    (hl_sorted : db_listings.Pairwise (fun a b => a.sale_id ≤ b.sale_id))
    (hl_pk : (db_listings.map (fun l => l.pk)).Nodup)
    (hfk : ∀ l ∈ db_listings, ∃ t ∈ db_sales, t.id = l.sale_id)
    (s : Sale) (hsmem : s ∈ db_sales) :
    ((convert_sales_to_promotions db_sales db_listings order_discounts
        checkout_discounts).promotions.countP
      (fun p => decide (p.old_sale_id = s.id)) = 1) ∧
    ((∃ l ∈ db_listings, l.sale_id = s.id) →
      (∀ (c : Nat) (v : Int),
        (convert_sales_to_promotions db_sales db_listings order_discounts
            checkout_discounts).rules.countP
          (fun r => decide (r.promotion.old_sale_id = s.id ∧
            r.channels = [c] ∧ r.reward_value = some v)) =
        db_listings.countP (fun l => decide (l.sale_id = s.id ∧
          l.channel_id = c ∧ l.discount_value = v))) ∧
      (convert_sales_to_promotions db_sales db_listings order_discounts
          checkout_discounts).rules.countP
        (fun r => decide (r.promotion.old_sale_id = s.id)) =
      db_listings.countP (fun l => decide (l.sale_id = s.id))) ∧
    ((¬ ∃ l ∈ db_listings, l.sale_id = s.id) →
      (convert_sales_to_promotions db_sales db_listings order_discounts
          checkout_discounts).rules.countP
        (fun r => decide (r.promotion.old_sale_id = s.id)) = 1 ∧
      (convert_sales_to_promotions db_sales db_listings order_discounts
          checkout_discounts).rules.countP
        (fun r => decide (r.promotion.old_sale_id = s.id ∧
          r.reward_value = none ∧ r.channels = [])) = 1) := by
  have hBp : 1 ≤ BATCH_SIZE := by norm_num [BATCH_SIZE]
  have hunl_sorted : ((db_sales.filter (fun t =>
      !(db_listings.any (fun l => l.sale_id == t.id)))).map
        (fun t => t.id)).Pairwise (· < ·) :=
    List.pairwise_map.mpr (hs_sorted.filter _)
  have hunl_pos : ∀ pk ∈ (db_sales.filter (fun t =>
      !(db_listings.any (fun l => l.sale_id == t.id)))).map (fun t => t.id),
      0 < pk := by
    intro pk hpk
    rcases List.mem_map.mp hpk with ⟨t, ht, rfl⟩
    exact hs_pos t (List.mem_of_mem_filter ht)
  have hfil0 : db_listings.filter (fun l => decide (0 < l.sale_id)) =
      db_listings :=
    List.filter_eq_self.mpr (fun l hl => decide_eq_true (by
      rcases hfk l hl with ⟨t, ht, hts⟩
      have := hs_pos t ht
      omega))
  have hfuel0 : (db_listings.filter
      (fun l => decide (0 < l.sale_id))).length < db_listings.length + 1 := by
    have := List.length_filter_le (fun l => decide (0 < l.sale_id)) db_listings
    omega
  have hMiff : s.id ∈ db_listings.map (fun l => l.sale_id) ↔
      ∃ l ∈ db_listings, l.sale_id = s.id := by
    rw [List.mem_map]
  have hUiff : s.id ∈ (db_sales.filter (fun t =>
      !(db_listings.any (fun l => l.sale_id == t.id)))).map (fun t => t.id) ↔
      ¬ (∃ l ∈ db_listings, l.sale_id = s.id) := by
    constructor
    · rintro hmem ⟨l, hl, hls⟩
      rcases List.mem_map.mp hmem with ⟨t, ht, hts⟩
      have hfil := List.mem_filter.mp ht
      have hany : db_listings.any (fun l => l.sale_id == t.id) = false := by
        have := hfil.2
        rwa [Bool.not_eq_true'] at this
      exact List.any_eq_false.mp hany l hl (by simp [hls, hts])
    · intro hnex
      refine List.mem_map.mpr ⟨s, List.mem_filter.mpr ⟨hsmem, ?_⟩, rfl⟩
      rw [Bool.not_eq_true']
      refine List.any_eq_false.mpr (fun l hl hbeq => ?_)
      exact hnex ⟨l, hl, by simpa using hbeq⟩
  have hP : (convert_sales_to_promotions db_sales db_listings order_discounts
      checkout_discounts).promotions =
      ((channel_listing_in_batches BATCH_SIZE db_listings).map
        (batch_promotions db_sales db_listings)).flatten ++
      ((queryset_in_batches BATCH_SIZE ((db_sales.filter (fun t =>
        !(db_listings.any (fun l => l.sale_id == t.id)))).map
          (fun t => t.id))).map (unlisted_batch_promotions db_sales)).flatten := by
    show ((queryset_in_batches BATCH_SIZE _).foldl
      (process_unlisted_batch db_sales)
      ((channel_listing_in_batches BATCH_SIZE db_listings).foldl
        (process_listing_batch db_sales db_listings)
        { promotions := [], rules := [],
          order_line_discounts := order_discounts,
          checkout_line_discounts := checkout_discounts })).promotions = _
    rw [foldl_unlisted_promotions, foldl_listing_promotions]
    simp
  have hR : (convert_sales_to_promotions db_sales db_listings order_discounts
      checkout_discounts).rules =
      ((channel_listing_in_batches BATCH_SIZE db_listings).map
        (batch_rules db_sales db_listings)).flatten ++
      ((queryset_in_batches BATCH_SIZE ((db_sales.filter (fun t =>
        !(db_listings.any (fun l => l.sale_id == t.id)))).map
          (fun t => t.id))).map (unlisted_batch_rules db_sales)).flatten := by
    show ((queryset_in_batches BATCH_SIZE _).foldl
      (process_unlisted_batch db_sales)
      ((channel_listing_in_batches BATCH_SIZE db_listings).foldl
        (process_listing_batch db_sales db_listings)
        { promotions := [], rules := [],
          order_line_discounts := order_discounts,
          checkout_line_discounts := checkout_discounts })).rules = _
    rw [foldl_unlisted_rules, foldl_listing_rules]
    simp
  refine ⟨?_, ?_, ?_⟩
  · rw [hP, List.countP_append]
    have h1 := phase1_promos_count db_sales db_listings hs_sorted hl_sorted
      hl_pk BATCH_SIZE hBp s hsmem (db_listings.length + 1) 0 hfuel0
    rw [show channel_listing_in_batches BATCH_SIZE db_listings =
      channel_listing_in_batches_go BATCH_SIZE db_listings 0
        (db_listings.length + 1) from rfl]
    rw [h1]
    rw [phase2_promos_count db_sales hs_sorted s hsmem BATCH_SIZE hBp _
      hunl_sorted hunl_pos]
    by_cases hM : ∃ l ∈ db_listings, l.sale_id = s.id
    · rw [if_pos ⟨hs_pos s hsmem, hMiff.mpr hM⟩,
        if_neg (fun h => (hUiff.mp h) hM)]
    · rw [if_neg (fun h => hM (hMiff.mp h.2)), if_pos (hUiff.mpr hM)]
  · intro hM
    constructor
    · intro c v
      rw [hR, List.countP_append]
      have hφ : ∀ l ∈ db_listings,
          (fun r => decide (r.promotion.old_sale_id = s.id ∧
            r.channels = [c] ∧ r.reward_value = some v))
            (ruleFor db_sales l) =
          (fun l => decide (l.sale_id = s.id ∧
            l.channel_id = c ∧ l.discount_value = v)) l := by
        intro l hl
        have hid := findSale_id db_sales l.sale_id (hfk l hl)
        simp only [ruleFor, RuleInfo.add_rule_to_channel, create_promotion_rule,
          convert_sale_into_promotion]
        rw [decide_eq_decide, hid]
        simp
      have h1 := phase1_rules_count db_sales db_listings hl_sorted hl_pk hfk
        BATCH_SIZE hBp
        (fun l => decide (l.sale_id = s.id ∧ l.channel_id = c ∧
          l.discount_value = v))
        (fun r => decide (r.promotion.old_sale_id = s.id ∧
          r.channels = [c] ∧ r.reward_value = some v))
        hφ (db_listings.length + 1) 0 hfuel0
      rw [show channel_listing_in_batches BATCH_SIZE db_listings =
        channel_listing_in_batches_go BATCH_SIZE db_listings 0
          (db_listings.length + 1) from rfl]
      rw [h1, hfil0]
      rw [phase2_rules_count_cv db_sales hs_sorted s BATCH_SIZE _ c v]
      omega
    · rw [hR, List.countP_append]
      have hφ : ∀ l ∈ db_listings,
          (fun r => decide (r.promotion.old_sale_id = s.id))
            (ruleFor db_sales l) =
          (fun l => decide (l.sale_id = s.id)) l := by
        intro l hl
        have hid := findSale_id db_sales l.sale_id (hfk l hl)
        simp only [ruleFor, RuleInfo.add_rule_to_channel, create_promotion_rule,
          convert_sale_into_promotion]
        rw [decide_eq_decide, hid]
      have h1 := phase1_rules_count db_sales db_listings hl_sorted hl_pk hfk
        BATCH_SIZE hBp (fun l => decide (l.sale_id = s.id))
        (fun r => decide (r.promotion.old_sale_id = s.id))
        hφ (db_listings.length + 1) 0 hfuel0
      rw [show channel_listing_in_batches BATCH_SIZE db_listings =
        channel_listing_in_batches_go BATCH_SIZE db_listings 0
          (db_listings.length + 1) from rfl]
      rw [h1, hfil0]
      rw [phase2_rules_count_plain db_sales hs_sorted s hsmem BATCH_SIZE hBp _
        hunl_sorted hunl_pos]
      rw [if_neg (fun h => (hUiff.mp h) hM)]
      omega
  · intro hM
    have hzero : db_listings.countP (fun l => decide (l.sale_id = s.id)) = 0 :=
      List.countP_eq_zero.mpr (fun l hl h =>
        hM ⟨l, hl, of_decide_eq_true h⟩)
    constructor
    · rw [hR, List.countP_append]
      have hφ : ∀ l ∈ db_listings,
          (fun r => decide (r.promotion.old_sale_id = s.id))
            (ruleFor db_sales l) =
          (fun l => decide (l.sale_id = s.id)) l := by
        intro l hl
        have hid := findSale_id db_sales l.sale_id (hfk l hl)
        simp only [ruleFor, RuleInfo.add_rule_to_channel, create_promotion_rule,
          convert_sale_into_promotion]
        rw [decide_eq_decide, hid]
      have h1 := phase1_rules_count db_sales db_listings hl_sorted hl_pk hfk
        BATCH_SIZE hBp (fun l => decide (l.sale_id = s.id))
        (fun r => decide (r.promotion.old_sale_id = s.id))
        hφ (db_listings.length + 1) 0 hfuel0
      rw [show channel_listing_in_batches BATCH_SIZE db_listings =
        channel_listing_in_batches_go BATCH_SIZE db_listings 0
          (db_listings.length + 1) from rfl]
      rw [h1, hfil0, hzero]
      rw [phase2_rules_count_plain db_sales hs_sorted s hsmem BATCH_SIZE hBp _
        hunl_sorted hunl_pos]
      rw [if_pos (hUiff.mpr hM)]
    · rw [hR, List.countP_append]
      have hφ : ∀ l ∈ db_listings,
          (fun r => decide (r.promotion.old_sale_id = s.id ∧
            r.reward_value = none ∧ r.channels = []))
            (ruleFor db_sales l) =
          (fun l => decide (l.sale_id = s.id ∧ False)) l := by
        intro l hl
        have hid := findSale_id db_sales l.sale_id (hfk l hl)
        simp only [ruleFor, RuleInfo.add_rule_to_channel, create_promotion_rule,
          convert_sale_into_promotion]
        rw [decide_eq_decide, hid]
        simp
      have h1 := phase1_rules_count db_sales db_listings hl_sorted hl_pk hfk
        BATCH_SIZE hBp (fun l => decide (l.sale_id = s.id ∧ False))
        (fun r => decide (r.promotion.old_sale_id = s.id ∧
          r.reward_value = none ∧ r.channels = []))
        hφ (db_listings.length + 1) 0 hfuel0
      rw [show channel_listing_in_batches BATCH_SIZE db_listings =
        channel_listing_in_batches_go BATCH_SIZE db_listings 0
          (db_listings.length + 1) from rfl]
      rw [h1, hfil0]
      rw [show db_listings.countP (fun l => decide (l.sale_id = s.id ∧ False)) = 0
        from List.countP_eq_zero.mpr (fun l hl h => by
          have := of_decide_eq_true h
          exact this.2)]
      rw [phase2_rules_count_refined db_sales hs_sorted s hsmem BATCH_SIZE hBp _
        hunl_sorted hunl_pos]
      rw [if_pos (hUiff.mpr hM)]



/-- Witness for C1: sale 1 (one listing, channel 7, value 5) ends with one
promotion and one rule in channel 7 with value 5; sale 2 (no listing) ends
with one rule with no value and no channel. -/
theorem convert_sales_to_promotions_correct_witness :
    ((convert_sales_to_promotions [saleDueDemo, saleNotifiedDemo]
        listingsDemoC1 [] []).promotions.countP
      (fun p => decide (p.old_sale_id = saleDueDemo.id)) = 1) ∧
    ((convert_sales_to_promotions [saleDueDemo, saleNotifiedDemo]
        listingsDemoC1 [] []).rules.countP
      (fun r => decide (r.promotion.old_sale_id = saleDueDemo.id ∧
        r.channels = [7] ∧ r.reward_value = some 5)) = 1) ∧
    ((convert_sales_to_promotions [saleDueDemo, saleNotifiedDemo]
        listingsDemoC1 [] []).rules.countP
      (fun r => decide (r.promotion.old_sale_id = saleNotifiedDemo.id ∧
        r.reward_value = none ∧ r.channels = [])) = 1) := by
  have h1 := convert_sales_to_promotions_correct [saleDueDemo, saleNotifiedDemo]
    listingsDemoC1 [] [] (by decide) (by decide) (by decide) (by decide)
    (by decide) saleDueDemo (by simp)
  have h2 := convert_sales_to_promotions_correct [saleDueDemo, saleNotifiedDemo]
    listingsDemoC1 [] [] (by decide) (by decide) (by decide) (by decide)
    (by decide) saleNotifiedDemo (by simp)
  refine ⟨h1.1, ?_, ?_⟩
  · have hMl : ∃ l ∈ listingsDemoC1, l.sale_id = saleDueDemo.id := by decide
    have hcv := (h1.2.1 hMl).1 7 5
    rw [hcv]
    decide
  · have hMn : ¬ ∃ l ∈ listingsDemoC1, l.sale_id = saleNotifiedDemo.id := by
      decide
    exact (h2.2.2 hMn).2

end Saleor
